import Mathlib

/-!
# IPI notification driver for the Zynq UltraScale+ MPSoC (A53 master, R5 remote)

A shallow embedding of `zynqmp_remoteproc_r5.c` (`_notify`, `_poll`, `_initialize`,
`_release`) and the properties of its behaviour.

Conventions of the embedding.

* A C pointer is an `Option Nat`: `none` is `NULL`, `some a` is the address `a`.
* The channel descriptors (`struct ipi_info`) live in a store `World.ipis`; the
  `data` field of a binding is an address into that store, so two bindings may
  refer to the same descriptor.
* The `struct hil_proc` a handle points to is passed by value; `_initialize`, the
  only function that writes one of its fields (`vect_id`), returns the updated
  object.
* The platform layer (libmetal register access, device open/close, allocation,
  CPU yield) and `virtqueue_notification` are not part of the driver: they are
  the fields of a `Platform`, acting on a platform state of an arbitrary type.
  Every call the driver makes to one of them is appended to `World.trace` with
  the arguments the driver passes.
* Dereferencing `NULL`, an address outside the descriptor store, or an array
  entry that does not exist is a `Fault`. A region pointer is handed to the
  register access functions as the driver holds it; what they do with it
  belongs to the platform.
* The constant `HIL_MAX_NUM_VRINGS` of `openamp/hil.h` is an argument of
  `_initialize` and `_release`.
* The `while(1)` loop of `_poll` takes a fuel argument; running out of fuel is
  `Res.timeout`.
-/

namespace ZynqmpR5

/-! ## Constants of the source -/

/-- IPI trigger register offset. -/
def IPI_TRIG_OFFSET : Nat := 0x00000000
/-- IPI observation register offset. -/
def IPI_OBS_OFFSET : Nat := 0x00000004
/-- IPI interrupt status register offset. -/
def IPI_ISR_OFFSET : Nat := 0x00000010
/-- IPI interrupt mask register offset. -/
def IPI_IMR_OFFSET : Nat := 0x00000014
/-- IPI interrupt enable register offset. -/
def IPI_IER_OFFSET : Nat := 0x00000018
/-- IPI interrupt disable register offset. -/
def IPI_IDR_OFFSET : Nat := 0x0000001C

/-- Value of `EAGAIN` in `errno.h`. -/
def EAGAIN : Int := 11
/-- Value of `ENODEV` in `errno.h`. -/
def ENODEV : Int := 19

/-- Conversion to `uint32_t`. -/
def uint32 (x : Nat) : Nat := x % 2 ^ 32

/-! ## Data model -/

/-- The channel descriptor `struct ipi_info`. -/
structure ipi_info where
  name : Option String
  bus_name : Option String
  dev : Option Nat
  io : Option Nat
  paddr : Nat
  ipi_chn_mask : Nat
  need_reg : Int
  sync : Int
  deriving DecidableEq, Repr

/-- The fields of `struct proc_intr` the driver uses. -/
structure proc_intr where
  vect_id : Nat
  data : Option Nat
  deriving DecidableEq, Repr

/-- The fields of `struct proc_vring` the driver uses. -/
structure proc_vring where
  vq : Option Nat
  intr_info : proc_intr
  deriving DecidableEq, Repr

/-- The fields of `struct proc_vdev` the driver uses: the array
`vring_info[HIL_MAX_NUM_VRINGS]`. -/
structure proc_vdev where
  vring_info : List proc_vring
  deriving DecidableEq, Repr

/-- The fields of `struct hil_proc` the driver uses. -/
structure hil_proc where
  vdev : proc_vdev
  deriving DecidableEq, Repr

/-- One call of the driver into the platform layer or the virtqueue layer. -/
inductive Event where
  | read32 (io : Option Nat) (offset : Nat)
  | write32 (io : Option Nat) (offset : Nat) (value : Nat)
  | device_open (bus_name : String) (dev_name : String)
  | device_close (dev : Option Nat)
  | allocate_memory (size : Nat)
  | io_init (io : Option Nat) (virt : Nat) (physmap : Nat) (size : Nat)
      (page_shift : Nat) (mem_flags : Nat)
  | free_memory (ptr : Option Nat)
  | cpu_yield
  | virtqueue_notification (vq : Option Nat)
  deriving DecidableEq, Repr

/-- Undefined behaviour of the C program made explicit. -/
inductive Fault where
  | nullDeref
  | badPointer
  | outOfBounds
  deriving DecidableEq, Repr

/-- The platform abstraction layer the driver is written against, over a
platform state `σ`. None of these functions is defined in the driver. -/
structure Platform (σ : Type) where
  /-- Function `metal_io_read32(io, offset)`. -/
  metal_io_read32 : σ → Option Nat → Nat → Nat
  /-- Function `metal_io_write32(io, offset, value)`. -/
  metal_io_write32 : σ → Option Nat → Nat → Nat → σ
  /-- Function `metal_device_open(bus_name, dev_name, &dev)`: the return code and the
  device pointer handed back. -/
  metal_device_open : σ → String → String → Int × Option Nat × σ
  /-- Function `metal_device_io_region(dev, index)`. -/
  metal_device_io_region : σ → Option Nat → Nat → Option Nat
  /-- Field `dev->irq_info` of an open device, converted to `uintptr_t`. -/
  irq_info : σ → Nat → Nat
  /-- Function `metal_allocate_memory(size)`. -/
  metal_allocate_memory : σ → Nat → Option Nat × σ
  /-- Function `metal_io_init(io, virt, physmap, size, page_shift, mem_flags, NULL)`. -/
  metal_io_init : σ → Option Nat → Nat → Nat → Nat → Nat → Nat → σ
  /-- Function `metal_device_close(dev)`. -/
  metal_device_close : σ → Option Nat → σ
  /-- Function `metal_free_memory(ptr)`. -/
  metal_free_memory : σ → Option Nat → σ
  /-- Function `metal_cpu_yield()`. -/
  metal_cpu_yield : σ → σ
  /-- Function `virtqueue_notification(vq)`. -/
  virtqueue_notification : σ → Option Nat → σ
  /-- Constant `sizeof(struct metal_io_region)`. -/
  sizeof_metal_io_region : Nat
  /-- Constant `METAL_UNCACHED`. -/
  METAL_UNCACHED : Nat
  /-- Constant `METAL_IO_MAPPED`. -/
  METAL_IO_MAPPED : Nat

/-- Everything the driver can read or change: the descriptor store, the
platform state, and the calls made so far. -/
structure World (σ : Type) where
  ipis : List ipi_info
  plat : σ
  trace : List Event

/-- Outcome of running a driver function. -/
inductive Res (σ : Type) (α : Type) where
  | ok (val : α) (w : World σ)
  | fault (f : Fault)
  | timeout

/-- A driver computation. -/
def M (σ : Type) (α : Type) : Type := World σ → Res σ α

/-- Sequencing of driver computations. -/
def M.bind {σ α β : Type} (m : M σ α) (f : α → M σ β) : M σ β := fun w =>
  match m w with
  | .ok a w1 => f a w1
  | .fault e => .fault e
  | .timeout => .timeout

/-- A computation that returns without touching the world. -/
def M.pure {σ α : Type} (a : α) : M σ α := fun w => .ok a w

instance {σ : Type} : Monad (M σ) where
  pure := M.pure
  bind := M.bind

/-- Undefined behaviour. -/
def M.fault {σ α : Type} (e : Fault) : M σ α := fun _ => .fault e

/-- The fuel of a loop is used up. -/
def M.timeout {σ α : Type} : M σ α := fun _ => .timeout

/-- Value returned, if the computation returned. -/
def Res.val? {σ α : Type} : Res σ α → Option α
  | .ok a _ => some a
  | _ => none

/-- Calls recorded when the computation returned. -/
def Res.trace? {σ α : Type} : Res σ α → Option (List Event)
  | .ok _ w => some w.trace
  | _ => none

/-- Descriptor store when the computation returned. -/
def Res.ipis? {σ α : Type} : Res σ α → Option (List ipi_info)
  | .ok _ w => some w.ipis
  | _ => none

/-- The world in which a computation returned, else `w`. -/
def Res.worldD {σ α : Type} (r : Res σ α) (w : World σ) : World σ :=
  match r with
  | .ok _ w1 => w1
  | _ => w

/-! ## Memory access -/

/-- Read the descriptor `*ipi`. -/
def deref {σ : Type} (ipi : Option Nat) : M σ ipi_info := fun w =>
  match ipi with
  | none => .fault .nullDeref
  | some a =>
    match w.ipis[a]? with
    | none => .fault .badPointer
    | some d => .ok d w

/-- Assign fields of the descriptor `*ipi`. -/
def assign {σ : Type} (ipi : Option Nat) (f : ipi_info → ipi_info) : M σ Unit := fun w =>
  match ipi with
  | none => .fault .nullDeref
  | some a =>
    match w.ipis[a]? with
    | none => .fault .badPointer
    | some d => .ok () { w with ipis := w.ipis.set a (f d) }

/-- The array entry `proc->vdev.vring_info[i]`. -/
def vring_at {σ : Type} (proc : hil_proc) (i : Nat) : M σ proc_vring := fun w =>
  match proc.vdev.vring_info[i]? with
  | none => .fault .outOfBounds
  | some v => .ok v w

/-! ## Calls into the platform layer, each recorded in the trace -/

/-- Call of `metal_io_read32`, whose result is a `uint32_t`. -/
def metal_io_read32 {σ : Type} (P : Platform σ) (io : Option Nat) (offset : Nat) : M σ Nat :=
  fun w => .ok (uint32 (P.metal_io_read32 w.plat io offset))
    { w with trace := w.trace ++ [Event.read32 io offset] }

/-- Call of `metal_io_write32`. -/
def metal_io_write32 {σ : Type} (P : Platform σ) (io : Option Nat) (offset : Nat)
    (value : Nat) : M σ Unit :=
  fun w => .ok ()
    { w with plat := P.metal_io_write32 w.plat io offset value
             trace := w.trace ++ [Event.write32 io offset value] }

/-- Call of `metal_device_open`: the return code and the device pointer. -/
def metal_device_open {σ : Type} (P : Platform σ) (bus_name dev_name : String) :
    M σ (Int × Option Nat) :=
  fun w =>
    let r := P.metal_device_open w.plat bus_name dev_name
    .ok (r.1, r.2.1)
      { w with plat := r.2.2
               trace := w.trace ++ [Event.device_open bus_name dev_name] }

/-- Call of `metal_device_io_region`, an accessor. -/
def metal_device_io_region {σ : Type} (P : Platform σ) (dev : Option Nat) (index : Nat) :
    M σ (Option Nat) :=
  fun w => .ok (P.metal_device_io_region w.plat dev index) w

/-- Read of `dev->irq_info`. -/
def dev_irq_info {σ : Type} (P : Platform σ) (dev : Option Nat) : M σ Nat := fun w =>
  match dev with
  | none => .fault .nullDeref
  | some d => .ok (P.irq_info w.plat d) w

/-- Call of `metal_allocate_memory`. -/
def metal_allocate_memory {σ : Type} (P : Platform σ) (size : Nat) : M σ (Option Nat) :=
  fun w =>
    let r := P.metal_allocate_memory w.plat size
    .ok r.1 { w with plat := r.2, trace := w.trace ++ [Event.allocate_memory size] }

/-- Call of `metal_io_init`. -/
def metal_io_init {σ : Type} (P : Platform σ) (io : Option Nat)
    (virt physmap size page_shift mem_flags : Nat) : M σ Unit :=
  fun w => .ok ()
    { w with plat := P.metal_io_init w.plat io virt physmap size page_shift mem_flags
             trace := w.trace ++ [Event.io_init io virt physmap size page_shift mem_flags] }

/-- Call of `metal_device_close`. -/
def metal_device_close {σ : Type} (P : Platform σ) (dev : Option Nat) : M σ Unit :=
  fun w => .ok ()
    { w with plat := P.metal_device_close w.plat dev
             trace := w.trace ++ [Event.device_close dev] }

/-- Call of `metal_free_memory`. -/
def metal_free_memory {σ : Type} (P : Platform σ) (ptr : Option Nat) : M σ Unit :=
  fun w => .ok ()
    { w with plat := P.metal_free_memory w.plat ptr
             trace := w.trace ++ [Event.free_memory ptr] }

/-- The macro `_rproc_wait()`, which is `metal_cpu_yield()`. -/
def _rproc_wait {σ : Type} (P : Platform σ) : M σ Unit :=
  fun w => .ok ()
    { w with plat := P.metal_cpu_yield w.plat, trace := w.trace ++ [Event.cpu_yield] }

/-- Call of `virtqueue_notification`. -/
def virtqueue_notification {σ : Type} (P : Platform σ) (vq : Option Nat) : M σ Unit :=
  fun w => .ok ()
    { w with plat := P.virtqueue_notification w.plat vq
             trace := w.trace ++ [Event.virtqueue_notification vq] }

/-! ## The driver -/

/-- Function `_enable_interrupt`. -/
def _enable_interrupt {σ : Type} (_intr : Option proc_intr) : M σ Int :=
  pure 0

/-- Function `_notify`. -/
def _notify {σ : Type} (P : Platform σ) (_proc : Option hil_proc)
    (intr_info : Option proc_intr) : M σ Unit :=
  match intr_info with
  | none => M.fault .nullDeref
  | some intr =>
    let ipi := intr.data
    if ipi = none then
      pure ()
    else do
      let d ← deref ipi
      metal_io_write32 P d.io IPI_TRIG_OFFSET d.ipi_chn_mask

/-- Function `_boot_cpu`. -/
def _boot_cpu {σ : Type} (_proc : Option hil_proc) (_load_addr : Nat) : M σ Int :=
  pure (-1)

/-- Function `_shutdown_cpu`. -/
def _shutdown_cpu {σ : Type} (_proc : Option hil_proc) : M σ Unit :=
  pure ()

/-- The `while(1)` loop of `_poll`; one unit of fuel per iteration. -/
def poll_loop {σ : Type} (P : Platform σ) (vring : proc_vring) (ipi : Option Nat)
    (io : Option Nat) (nonblock : Int) : Nat → M σ Int
  | 0 => M.timeout
  | fuel + 1 => do
    let ipi_intr_status ← metal_io_read32 P io IPI_ISR_OFFSET
    let d ← deref ipi
    if ipi_intr_status &&& d.ipi_chn_mask ≠ 0 then do
      metal_io_write32 P io IPI_ISR_OFFSET d.ipi_chn_mask
      virtqueue_notification P vring.vq
      pure 0
    else if nonblock ≠ 0 then
      pure (-EAGAIN)
    else do
      _rproc_wait P
      poll_loop P vring ipi io nonblock fuel

/-- Function `_poll`. -/
def _poll {σ : Type} (P : Platform σ) (fuel : Nat) (proc : Option hil_proc)
    (nonblock : Int) : M σ Int :=
  match proc with
  | none => M.fault .nullDeref
  | some pr => do
    let vring ← vring_at pr 0
    let ipi := vring.intr_info.data
    let d ← deref ipi
    let io := d.io
    poll_loop P vring ipi io nonblock fuel

/-- One iteration of the loop of `_release`. The slot index is the constant `1`
of the source, whatever the loop counter is. -/
def release_slot {σ : Type} (P : Platform σ) (pr : hil_proc) (_i : Nat) : M σ Unit := do
  let vring ← vring_at pr 1
  let intr_info := vring.intr_info
  let ipi := intr_info.data
  if ipi = none then
    pure ()
  else do
    let d ← deref ipi
    if d.io ≠ none then do
      metal_io_write32 P d.io IPI_IDR_OFFSET d.ipi_chn_mask
      if d.dev ≠ none then do
        metal_device_close P d.dev
        assign ipi (fun x => { x with dev := none })
      else
        metal_free_memory P d.io
      assign ipi (fun x => { x with io := none })
    else
      pure ()

/-- The loop `for (i = ...; i < HIL_MAX_NUM_VRINGS; i++)` of `_release`, with
`k` iterations left, starting at index `i`. -/
def release_loop {σ : Type} (P : Platform σ) (pr : hil_proc) : Nat → Nat → M σ Unit
  | _, 0 => pure ()
  | i, k + 1 => do
    release_slot P pr i
    release_loop P pr (i + 1) k

/-- Function `_release`; `HIL_MAX_NUM_VRINGS` is a constant of `openamp/hil.h`. -/
def _release {σ : Type} (P : Platform σ) (HIL_MAX_NUM_VRINGS : Nat)
    (proc : Option hil_proc) : M σ Unit :=
  match proc with
  | none => pure ()
  | some pr => release_loop P pr 0 HIL_MAX_NUM_VRINGS

/-- How one iteration of the loop of `_initialize` ends. -/
inductive Ctl where
  | next
  | ret (v : Int)
  | error
  deriving DecidableEq, Repr

/-- Assignment `proc->vdev.vring_info[i].intr_info.vect_id = v`. -/
def set_vect_id (pr : hil_proc) (i : Nat) (v : Nat) : hil_proc :=
  match pr.vdev.vring_info[i]? with
  | none => pr
  | some r =>
    let r1 : proc_vring := { r with intr_info := { r.intr_info with vect_id := v } }
    { pr with vdev := { pr.vdev with vring_info := pr.vdev.vring_info.set i r1 } }

/-- First half of an iteration of the loop of `_initialize`: binding the
descriptor to a register window. -/
def init_bind {σ : Type} (P : Platform σ) (pr : hil_proc) (i : Nat) :
    M σ (Ctl × hil_proc) := do
  let vring ← vring_at pr i
  let ipi := vring.intr_info.data
  let named ← (if ipi = none then (pure false : M σ Bool) else do
    let d ← deref ipi
    pure (d.name.isSome && d.bus_name.isSome))
  if named then do
    let d ← deref ipi
    let r ← metal_device_open P (d.bus_name.getD "") (d.name.getD "")
    if r.1 ≠ 0 then
      pure (Ctl.ret (-ENODEV), pr)
    else do
      assign ipi (fun x => { x with dev := r.2 })
      let io ← metal_device_io_region P r.2 0
      assign ipi (fun x => { x with io := io })
      let v ← dev_irq_info P r.2
      pure (Ctl.next, set_vect_id pr i v)
  else do
    let d ← deref ipi
    if d.paddr ≠ 0 then do
      let io ← metal_allocate_memory P P.sizeof_metal_io_region
      assign ipi (fun x => { x with io := io })
      if io = none then
        pure (Ctl.error, pr)
      else do
        metal_io_init P io d.paddr d.paddr 0x1000 (2 ^ 32 - 1)
          (P.METAL_UNCACHED ||| P.METAL_IO_MAPPED)
        pure (Ctl.next, pr)
    else
      pure (Ctl.next, pr)

/-- Second half of an iteration of the loop of `_initialize`: acknowledge and
disable the channel when it has a register window. -/
def init_quiesce {σ : Type} (P : Platform σ) (pr : hil_proc) (i : Nat) : M σ Unit := do
  let vring ← vring_at pr i
  let ipi := vring.intr_info.data
  let d ← deref ipi
  if d.io ≠ none then do
    let ipi_intr_status ← metal_io_read32 P d.io IPI_ISR_OFFSET
    if ipi_intr_status &&& d.ipi_chn_mask ≠ 0 then
      metal_io_write32 P d.io IPI_ISR_OFFSET d.ipi_chn_mask
    else
      pure ()
    metal_io_write32 P d.io IPI_IDR_OFFSET d.ipi_chn_mask
    assign ipi (fun x => { x with sync := 1 })
  else
    pure ()

/-- One iteration of the loop of `_initialize`. -/
def init_slot {σ : Type} (P : Platform σ) (pr : hil_proc) (i : Nat) :
    M σ (Ctl × hil_proc) := do
  let r ← init_bind P pr i
  match r.1 with
  | Ctl.next => do
    init_quiesce P r.2 i
    pure (Ctl.next, r.2)
  | c => pure (c, r.2)

/-- The loop `for (i = ...; i < HIL_MAX_NUM_VRINGS; i++)` of `_initialize`, with
`k` iterations left, starting at index `i`. -/
def init_loop {σ : Type} (P : Platform σ) : hil_proc → Nat → Nat → M σ (Ctl × hil_proc)
  | pr, _, 0 => pure (Ctl.next, pr)
  | pr, i, k + 1 => do
    let r ← init_slot P pr i
    match r.1 with
    | Ctl.next => init_loop P r.2 (i + 1) k
    | c => pure (c, r.2)

/-- Function `_initialize`: the return code and the `hil_proc` object as the
function leaves it. -/
def _initialize {σ : Type} (P : Platform σ) (HIL_MAX_NUM_VRINGS : Nat)
    (proc : Option hil_proc) : M σ (Int × Option hil_proc) :=
  match proc with
  | none => pure (-1, none)
  | some pr => do
    let r ← init_loop P pr 0 HIL_MAX_NUM_VRINGS
    match r.1 with
    | Ctl.next => pure (0, some r.2)
    | Ctl.ret v => pure (v, some r.2)
    | Ctl.error => do
      _release P HIL_MAX_NUM_VRINGS (some r.2)
      pure (-1, some r.2)

/-! ## A register-level model of the platform, for running the driver -/

/-- State of the simulated platform. -/
structure Sim where
  /-- Contents of the register at a byte offset of the block a region maps. -/
  regs : Option Nat → Nat → Nat
  /-- Devices that can be opened: bus name, device name, device pointer,
  region 0 of the device, `irq_info` of the device. -/
  devices : List (String × String × Nat × Option Nat × Nat)
  /-- Results of the successive calls of `metal_allocate_memory`; when the list is
  used up the allocation fails. -/
  heap : List (Option Nat)
  /-- Bits the remote core raises in the interrupt status register of a region
  at the successive CPU yields. -/
  incoming : List (Option Nat × Nat)

/-- Store `v` in the register at `off` of the block of `io`. -/
def Sim.setReg (s : Sim) (io : Option Nat) (off : Nat) (v : Nat) : Sim :=
  { s with regs := fun io1 off1 => if io1 = io ∧ off1 = off then v else s.regs io1 off1 }

/-- The device with this bus and name, if there is one. -/
def Sim.findDevice (s : Sim) (bus_name dev_name : String) :
    Option (String × String × Nat × Option Nat × Nat) :=
  s.devices.find? (fun e => e.1 = bus_name ∧ e.2.1 = dev_name)

/-- The device with this pointer, if there is one. -/
def Sim.deviceAt (s : Sim) (dev : Nat) : Option (String × String × Nat × Option Nat × Nat) :=
  s.devices.find? (fun e => e.2.2.1 = dev)

/-- Modelled from the spec: the platform abstraction layer (libmetal) and the IPI
register block, which are not part of the driver. The register block follows the
table of the external interfaces: a write to the interrupt status register at
0x10 clears the bits written (write-1-to-clear), a write to the interrupt disable
register at 0x1C sets the bits in the interrupt mask register at 0x14, a write
to the interrupt enable register at 0x18 clears them there, a write to the
trigger register at 0x00 is seen by the remote core only. Device open succeeds
for the devices of the table; allocation hands out the pointers of the list;
a CPU yield lets the remote core raise its next bits. -/
def simPlatform : Platform Sim where
  metal_io_read32 := fun s io off => s.regs io off
  metal_io_write32 := fun s io off v =>
    if off = IPI_ISR_OFFSET then
      s.setReg io IPI_ISR_OFFSET (s.regs io IPI_ISR_OFFSET ^^^ (s.regs io IPI_ISR_OFFSET &&& v))
    else if off = IPI_IDR_OFFSET then
      s.setReg io IPI_IMR_OFFSET (s.regs io IPI_IMR_OFFSET ||| v)
    else if off = IPI_IER_OFFSET then
      s.setReg io IPI_IMR_OFFSET (s.regs io IPI_IMR_OFFSET ^^^ (s.regs io IPI_IMR_OFFSET &&& v))
    else s
  metal_device_open := fun s bus_name dev_name =>
    match s.findDevice bus_name dev_name with
    | some e => (0, some e.2.2.1, s)
    | none => (-ENODEV, none, s)
  metal_device_io_region := fun s dev index =>
    match dev with
    | none => none
    | some d =>
      match s.deviceAt d with
      | some e => if index = 0 then e.2.2.2.1 else none
      | none => none
  irq_info := fun s d =>
    match s.deviceAt d with
    | some e => e.2.2.2.2
    | none => 0
  metal_allocate_memory := fun s _ =>
    match s.heap with
    | [] => (none, s)
    | p :: rest => (p, { s with heap := rest })
  metal_io_init := fun s _ _ _ _ _ _ => s
  metal_device_close := fun s _ => s
  metal_free_memory := fun s _ => s
  metal_cpu_yield := fun s =>
    match s.incoming with
    | [] => s
    | (io, bits) :: rest =>
      { (s.setReg io IPI_ISR_OFFSET (s.regs io IPI_ISR_OFFSET ||| bits)) with incoming := rest }
  virtqueue_notification := fun s _ => s
  sizeof_metal_io_region := 64
  METAL_UNCACHED := 1
  METAL_IO_MAPPED := 2

/-- A descriptor bound to a named device, before initialization. -/
def namedIpi (bus_name dev_name : String) (mask : Nat) : ipi_info :=
  { name := some dev_name, bus_name := some bus_name, dev := none, io := none,
    paddr := 0, ipi_chn_mask := mask, need_reg := 0, sync := 0 }

/-- A descriptor bound to a raw physical address, before initialization. -/
def rawIpi (paddr : Nat) (mask : Nat) : ipi_info :=
  { name := none, bus_name := none, dev := none, io := none,
    paddr := paddr, ipi_chn_mask := mask, need_reg := 0, sync := 0 }

/-- A descriptor whose register window `io` is mapped. -/
def mappedIpi (dev : Option Nat) (io : Nat) (mask : Nat) : ipi_info :=
  { name := none, bus_name := none, dev := dev, io := some io,
    paddr := 0, ipi_chn_mask := mask, need_reg := 0, sync := 1 }

/-- A ring slot with virtqueue `vq` whose binding refers to descriptor `data`. -/
def slot (vq : Nat) (data : Option Nat) : proc_vring :=
  { vq := some vq, intr_info := { vect_id := 0, data := data } }

/-- A processor handle with two ring slots. -/
def proc2 (data0 data1 : Option Nat) : hil_proc :=
  { vdev := { vring_info := [slot 100 data0, slot 101 data1] } }

/-- A simulated platform with the given interrupt status in region `io`. -/
def simWithStatus (io : Nat) (status : Nat) : Sim :=
  { regs := fun io1 off1 => if io1 = some io ∧ off1 = IPI_ISR_OFFSET then status else 0
    devices := [], heap := [], incoming := [] }

/-- A world over the simulated platform with an empty trace. -/
def simWorld (ipis : List ipi_info) (s : Sim) : World Sim :=
  { ipis := ipis, plat := s, trace := [] }

/-! ## Vocabulary of the statements -/

/-- Platform state after `k` CPU yields. -/
def yields {σ : Type} (P : Platform σ) : Nat → σ → σ
  | 0, s => s
  | k + 1, s => yields P k (P.metal_cpu_yield s)

/-- What the status read of round `k` (counted from 0) of a blocking poll on
region `io` returns, when the poll starts in platform state `s`: the reads of
successive rounds are separated by one CPU yield. -/
def statusAt {σ : Type} (P : Platform σ) (io : Option Nat) (s : σ) (k : Nat) : Nat :=
  uint32 (P.metal_io_read32 (yields P k s) io 0x10)

/-- The calls of `k` rounds of the blocking poll that find nothing pending:
a status read, then a CPU yield, `k` times. -/
def waitTrace (io : Option Nat) : Nat → List Event
  | 0 => []
  | k + 1 => Event.read32 io 0x10 :: Event.cpu_yield :: waitTrace io k

/-- The calls of the round of a poll that finds the channel pending. -/
def hitTrace (io : Option Nat) (m : Nat) (vq : Option Nat) : List Event :=
  [Event.read32 io 0x10, Event.write32 io 0x10 m, Event.virtqueue_notification vq]

/-- Whether an event is a register read. -/
def Event.isRead : Event → Bool
  | .read32 _ _ => true
  | _ => false

/-- Whether an event is a register write. -/
def Event.isWrite : Event → Bool
  | .write32 _ _ _ => true
  | _ => false

/-- Whether an event is a CPU yield. -/
def Event.isYield : Event → Bool
  | .cpu_yield => true
  | _ => false

/-- Whether an event is a ring notification. -/
def Event.isNotification : Event → Bool
  | .virtqueue_notification _ => true
  | _ => false

/-- The value `s & ~m` of 32-bit unsigned arithmetic. -/
def clearBits (s m : Nat) : Nat := uint32 s &&& (0xFFFFFFFF ^^^ m)

/-- Write-1-to-clear reading of the interrupt status register at offset 0x10, in
a system where nothing but the driver acts on the registers between two of its
calls: a write of `v` clears the bits of `v` in the status register of that
region and leaves its other bits as they were, no register write raises a
status bit in any region, and the other platform calls of the driver leave the
status registers as they are. -/
structure W1C {σ : Type} (P : Platform σ) : Prop where
  ack : ∀ (s : σ) (io : Option Nat) (v i : Nat),
    (P.metal_io_read32 (P.metal_io_write32 s io 0x10 v) io 0x10).testBit i
      = ((P.metal_io_read32 s io 0x10).testBit i && !v.testBit i)
  write_frame : ∀ (s : σ) (io io1 : Option Nat) (off v i : Nat),
    (P.metal_io_read32 (P.metal_io_write32 s io1 off v) io 0x10).testBit i = true →
      (P.metal_io_read32 s io 0x10).testBit i = true
  notification_frame : ∀ (s : σ) (vq io : Option Nat),
    P.metal_io_read32 (P.virtqueue_notification s vq) io 0x10 = P.metal_io_read32 s io 0x10
  open_frame : ∀ (s : σ) (bus_name dev_name : String) (io : Option Nat),
    P.metal_io_read32 (P.metal_device_open s bus_name dev_name).2.2 io 0x10
      = P.metal_io_read32 s io 0x10
  allocate_frame : ∀ (s : σ) (size : Nat) (io : Option Nat),
    P.metal_io_read32 (P.metal_allocate_memory s size).2 io 0x10 = P.metal_io_read32 s io 0x10
  io_init_frame : ∀ (s : σ) (io1 : Option Nat) (virt physmap size page_shift mem_flags : Nat)
    (io : Option Nat),
    P.metal_io_read32 (P.metal_io_init s io1 virt physmap size page_shift mem_flags) io 0x10
      = P.metal_io_read32 s io 0x10

/-- Whether ring slot `i` exists and its binding refers to no descriptor or to a
descriptor of the store. -/
def slotValid (pr : hil_proc) (ipis : List ipi_info) (i : Nat) : Bool :=
  match pr.vdev.vring_info[i]? with
  | none => false
  | some vr =>
    match vr.intr_info.data with
    | none => true
    | some a => decide (a < ipis.length)

/-- The calls that tear down a mapped descriptor: the write of its mask to the
interrupt disable register at 0x1C, then the close of its device if it has one,
else the free of its region. -/
def teardownTrace (d : ipi_info) : List Event :=
  [Event.write32 d.io 0x1C d.ipi_chn_mask,
    if d.dev ≠ none then Event.device_close d.dev else Event.free_memory d.io]

/-- The platform state after the calls of `teardownTrace`. -/
def teardownPlat {σ : Type} (P : Platform σ) (s : σ) (d : ipi_info) : σ :=
  if d.dev ≠ none then
    P.metal_device_close (P.metal_io_write32 s d.io 0x1C d.ipi_chn_mask) d.dev
  else
    P.metal_free_memory (P.metal_io_write32 s d.io 0x1C d.ipi_chn_mask) d.io

/-- Whether an event closes a device or frees memory. -/
def Event.isTeardown : Event → Bool
  | .device_close _ => true
  | .free_memory _ => true
  | _ => false

/-- Nothing is pending for mask `m` in the interrupt status register of region
`io`, as `metal_io_read32` reports it. -/
def notPending {σ : Type} (P : Platform σ) (s : σ) (io : Option Nat) (m : Nat) : Prop :=
  uint32 (P.metal_io_read32 s io 0x10) &&& m = 0

/-- The descriptor address the binding of ring slot `j` holds, if the slot
exists and its `data` is not null. -/
def binding (pr : hil_proc) (j : Nat) : Option Nat :=
  match pr.vdev.vring_info[j]? with
  | none => none
  | some vr => vr.intr_info.data

/-- What a computation that works on the descriptor `*ipi` may change: no other
descriptor, under write-1-to-clear semantics no status bit becomes pending, and
the trace only grows. -/
structure Frame {σ : Type} (P : Platform σ) (ipi : Option Nat) (w w1 : World σ) : Prop where
  others : ∀ b, ipi ≠ some b → w1.ipis[b]? = w.ipis[b]?
  quiet : W1C P → ∀ r m, notPending P w.plat r m → notPending P w1.plat r m
  trace : ∃ added, w1.trace = w.trace ++ added

/-- Every returning run of `m` returns a value satisfying `Q` and stays within
the frame of the descriptor `*ipi`. -/
def Post {σ α : Type} (P : Platform σ) (ipi : Option Nat) (Q : α → Prop) (m : M σ α) : Prop :=
  ∀ w x w1, m w = Res.ok x w1 → Q x ∧ Frame P ipi w w1

/-- What the ring slots `lo ≤ j < hi` of `_initialize` have achieved between
the worlds `w` and `w1`: every descriptor bound to one of them that has a mapped
region in `w1` had its mask written to the interrupt disable register at 0x1C of
that region and, under write-1-to-clear semantics, has nothing pending for its
mask; descriptors bound to none of them are as they were; under
write-1-to-clear semantics no status bit became pending. -/
structure Quiesced {σ : Type} (P : Platform σ) (pr : hil_proc) (lo hi : Nat)
    (w w1 : World σ) : Prop where
  disabled : ∃ added, w1.trace = w.trace ++ added ∧
    ∀ j a d, lo ≤ j → j < hi → binding pr j = some a → w1.ipis[a]? = some d → d.io ≠ none →
      Event.write32 d.io 0x1C d.ipi_chn_mask ∈ added ∧
        (W1C P → notPending P w1.plat d.io d.ipi_chn_mask)
  others : ∀ b, (∀ j, lo ≤ j → j < hi → binding pr j ≠ some b) → w1.ipis[b]? = w.ipis[b]?
  quiet : W1C P → ∀ r m, notPending P w.plat r m → notPending P w1.plat r m

/-- The property C5 claims of one call of `_initialize`: when the call returns
0, every descriptor bound to a ring slot and having a non-zero mask has had its
mask written to the interrupt disable register at 0x1C of its region and, under
write-1-to-clear semantics, has nothing pending for its mask. -/
def DisablesEveryDescriptor {σ : Type} (P : Platform σ) (HIL_MAX_NUM_VRINGS : Nat)
    (pr : hil_proc) (w : World σ) : Prop :=
  ( _initialize P HIL_MAX_NUM_VRINGS (some pr) w).val?.map Prod.fst = some 0 →
  ∃ added,
    (( _initialize P HIL_MAX_NUM_VRINGS (some pr) w).worldD w).trace = w.trace ++ added ∧
    ∀ j a d, j < HIL_MAX_NUM_VRINGS → binding pr j = some a →
      (( _initialize P HIL_MAX_NUM_VRINGS (some pr) w).worldD w).ipis[a]? = some d →
      d.ipi_chn_mask ≠ 0 →
      Event.write32 d.io 0x1C d.ipi_chn_mask ∈ added ∧
        (W1C P → notPending P (( _initialize P HIL_MAX_NUM_VRINGS (some pr) w).worldD w).plat
          d.io d.ipi_chn_mask)

/-! ## Concrete scenarios -/

/-- A platform on which device `d0` of bus `b` can be opened (device pointer 7,
register region 1, interrupt 33) and nothing else, no allocation succeeds, and
bits 0 and 1 are pending in every status register. -/
def simOneDevice : Sim :=
  { regs := fun _ off => if off = IPI_ISR_OFFSET then 3 else 0
    devices := [("b", "d0", 7, some 1, 33)], heap := [], incoming := [] }

/-- A platform on which exactly one allocation succeeds (region 1), and bits 0
and 1 are pending in every status register. -/
def simOneAllocation : Sim :=
  { regs := fun _ off => if off = IPI_ISR_OFFSET then 3 else 0
    devices := [], heap := [some 1], incoming := [] }

/-- A platform on which device `d0` of bus `b` can be opened (device pointer 7)
but has no register region, and bit 0 is pending in every status register. -/
def simDeviceWithoutRegion : Sim :=
  { regs := fun _ off => if off = IPI_ISR_OFFSET then 1 else 0
    devices := [("b", "d0", 7, none, 33)], heap := [], incoming := [] }

/-- A platform on which the remote core raises bit 2, then nothing, then bit 1
of the status register of region 1 at the first three CPU yields; bit 0 is
pending from the start. -/
def simLateSignal : Sim :=
  { regs := fun io off => if io = some 1 ∧ off = IPI_ISR_OFFSET then 1 else 0
    devices := [], heap := [], incoming := [(some 1, 4), (some 1, 0), (some 1, 2)] }

/-- The world of the two-channel scenario: slot 0 bound to mask 2, slot 1 to
mask 1, both on region 1, whose status register holds `status`. -/
def twoChannelWorld (status : Nat) : World Sim :=
  simWorld [mappedIpi none 1 2, mappedIpi none 1 1] (simWithStatus 1 status)

/-- The world a successful poll leaves in the two-channel scenario. -/
def twoChannelPolled (status : Nat) : World Sim :=
  { ipis := [mappedIpi none 1 2, mappedIpi none 1 1]
    plat := simPlatform.virtqueue_notification
      (simPlatform.metal_io_write32 (simWithStatus 1 status) (some 1) 0x10 2) (some 100)
    trace := [Event.read32 (some 1) 0x10, Event.write32 (some 1) 0x10 2,
      Event.virtqueue_notification (some 100)] }

/-- The world with both ring slots mapped: slot 0 through device 7 on region 1
with mask 1, slot 1 through a raw mapping, region 2, with mask 2. -/
def bothMappedWorld : World Sim :=
  simWorld [mappedIpi (some 7) 1 1, mappedIpi none 2 2] (simWithStatus 1 0)

/-- A platform on which device `d0` of bus `b` can be opened (device pointer 7,
register region 1, interrupt 33), one allocation succeeds (region 2), and bits 0
and 1 are pending in every status register. -/
def simBothBindings : Sim :=
  { regs := fun _ off => if off = IPI_ISR_OFFSET then 3 else 0
    devices := [("b", "d0", 7, some 1, 33)], heap := [some 2], incoming := [] }

/-- The world of a handle not yet initialized: slot 0 bound to device `d0` with
mask 1, slot 1 bound to the raw address 0x8000 with mask 2. -/
def bothBindingsWorld : World Sim :=
  simWorld [namedIpi "b" "d0" 1, rawIpi 0x8000 2] simBothBindings

/-- The world of a handle not yet initialized whose slot 0 is bound to a device
without register region (mask 1) and whose slot 1 has a descriptor with neither
a device name nor a physical address (mask 2). -/
def unmappableWorld : World Sim :=
  simWorld [namedIpi "b" "d0" 1, rawIpi 0 2] simDeviceWithoutRegion

/-! ## Unfolding lemmas -/

section Basics

variable {σ α β : Type}

@[simp] theorem bind_run (m : M σ α) (f : α → M σ β) (w : World σ) :
    (m >>= f) w = M.bind m f w := rfl

@[simp] theorem pure_run (a : α) (w : World σ) : (pure a : M σ α) w = Res.ok a w := rfl

theorem bind_ok {m : M σ α} {f : α → M σ β} {w w1 : World σ} {a : α}
    (h : m w = Res.ok a w1) : M.bind m f w = f a w1 := by
  simp [M.bind, h]

theorem deref_some {w : World σ} {a : Nat} {d : ipi_info} (h : w.ipis[a]? = some d) :
    (deref (some a) : M σ ipi_info) w = Res.ok d w := by
  simp [deref, h]

end Basics

/-! ## Notify -/

/-- C4: `_notify` does nothing at all when the binding has no channel descriptor,
and otherwise makes exactly one platform call, the write of the descriptor's
channel mask to the trigger register at offset 0x00 of the descriptor's region;
the descriptor store is left as it was. -/
theorem notify_single_trigger_write {σ : Type} (P : Platform σ) (proc : Option hil_proc)
    (intr : proc_intr) (w : World σ) :
    (intr.data = none → _notify P proc (some intr) w = Res.ok () w) ∧
    (∀ a d, intr.data = some a → w.ipis[a]? = some d →
      _notify P proc (some intr) w = Res.ok ()
        { ipis := w.ipis
          plat := P.metal_io_write32 w.plat d.io 0x00 d.ipi_chn_mask
          trace := w.trace ++ [Event.write32 d.io 0x00 d.ipi_chn_mask] }) := by
  constructor
  · intro h
    simp [_notify, h]
  · intro a d h hd
    simp [_notify, h, bind_ok (deref_some hd), metal_io_write32, IPI_TRIG_OFFSET]

/-- Witness of C4 on the simulated platform: a binding without descriptor, and a
binding whose descriptor has mask 2 and region 1. -/
theorem notify_single_trigger_write_witness :
    _notify simPlatform none (some { vect_id := 0, data := none })
        (simWorld [mappedIpi none 1 2] (simWithStatus 1 0))
      = Res.ok () (simWorld [mappedIpi none 1 2] (simWithStatus 1 0)) ∧
    _notify simPlatform none (some { vect_id := 0, data := some 0 })
        (simWorld [mappedIpi none 1 2] (simWithStatus 1 0))
      = Res.ok ()
        { ipis := [mappedIpi none 1 2]
          plat := simPlatform.metal_io_write32 (simWithStatus 1 0) (some 1) 0x00 2
          trace := [Event.write32 (some 1) 0x00 2] } :=
  ⟨(notify_single_trigger_write simPlatform none { vect_id := 0, data := none }
      (simWorld [mappedIpi none 1 2] (simWithStatus 1 0))).1 rfl,
   (notify_single_trigger_write simPlatform none { vect_id := 0, data := some 0 }
      (simWorld [mappedIpi none 1 2] (simWithStatus 1 0))).2 0 (mappedIpi none 1 2) rfl rfl⟩

/-! ## Poll -/

theorem vring_at_some {σ : Type} {pr : hil_proc} {i : Nat} {vr : proc_vring} (w : World σ)
    (h : pr.vdev.vring_info[i]? = some vr) :
    (vring_at pr i : M σ proc_vring) w = Res.ok vr w := by
  simp [vring_at, h]

/-- Entering the loop of `_poll` when slot 0 has a descriptor. -/
theorem poll_enter {σ : Type} (P : Platform σ) {pr : hil_proc} {vr : proc_vring} {a : Nat}
    {d : ipi_info} {w : World σ} (fuel : Nat) (nonblock : Int)
    (hslot : pr.vdev.vring_info[0]? = some vr) (hdata : vr.intr_info.data = some a)
    (hd : w.ipis[a]? = some d) :
    _poll P fuel (some pr) nonblock w = poll_loop P vr (some a) d.io nonblock fuel w := by
  simp [_poll, bind_ok (vring_at_some w hslot), hdata, bind_ok (deref_some hd)]

/-- An iteration of the loop of `_poll` that finds the channel bit set. -/
theorem poll_loop_hit {σ : Type} (P : Platform σ) (vr : proc_vring) {a : Nat} {d : ipi_info}
    (io : Option Nat) (nonblock : Int) (fuel : Nat) {w : World σ}
    (hd : w.ipis[a]? = some d)
    (hs : uint32 (P.metal_io_read32 w.plat io 0x10) &&& d.ipi_chn_mask ≠ 0) :
    poll_loop P vr (some a) io nonblock (fuel + 1) w = Res.ok 0
      { ipis := w.ipis
        plat := P.virtqueue_notification (P.metal_io_write32 w.plat io 0x10 d.ipi_chn_mask) vr.vq
        trace := w.trace ++ [Event.read32 io 0x10, Event.write32 io 0x10 d.ipi_chn_mask,
          Event.virtqueue_notification vr.vq] } := by
  simp [poll_loop, M.bind, metal_io_read32, IPI_ISR_OFFSET, deref, hd, hs,
    metal_io_write32, virtqueue_notification]

/-- An iteration of the loop of `_poll` that finds the channel bit clear, in
nonblocking mode. -/
theorem poll_loop_miss_nonblock {σ : Type} (P : Platform σ) (vr : proc_vring) {a : Nat}
    {d : ipi_info} (io : Option Nat) {nonblock : Int} (fuel : Nat) {w : World σ}
    (hd : w.ipis[a]? = some d) (hnb : nonblock ≠ 0)
    (hs : uint32 (P.metal_io_read32 w.plat io 0x10) &&& d.ipi_chn_mask = 0) :
    poll_loop P vr (some a) io nonblock (fuel + 1) w = Res.ok (-EAGAIN)
      { w with trace := w.trace ++ [Event.read32 io 0x10] } := by
  simp [poll_loop, M.bind, metal_io_read32, IPI_ISR_OFFSET, deref, hd, hs, hnb]

/-- An iteration of the loop of `_poll` that finds the channel bit clear, in
blocking mode: yield and go round again. -/
theorem poll_loop_miss_block {σ : Type} (P : Platform σ) (vr : proc_vring) {a : Nat}
    {d : ipi_info} (io : Option Nat) (fuel : Nat) {w : World σ}
    (hd : w.ipis[a]? = some d)
    (hs : uint32 (P.metal_io_read32 w.plat io 0x10) &&& d.ipi_chn_mask = 0) :
    poll_loop P vr (some a) io 0 (fuel + 1) w = poll_loop P vr (some a) io 0 fuel
      { ipis := w.ipis
        plat := P.metal_cpu_yield w.plat
        trace := w.trace ++ [Event.read32 io 0x10, Event.cpu_yield] } := by
  simp [poll_loop, M.bind, metal_io_read32, IPI_ISR_OFFSET, deref, hd, hs, _rproc_wait]

/-- C1: when slot 0 of the handle has a mapped channel descriptor with mask `m`
and the interrupt status register reads `s`, a nonblocking `_poll` returns
`-EAGAIN` after the status read alone (no register write, no ring notification)
when `s & m = 0`; when `s & m ≠ 0` it returns 0 after exactly one write of `m`
to the interrupt status register at offset 0x10 followed by exactly one
`virtqueue_notification` on the ring of slot 0. -/
theorem poll_nonblocking {σ : Type} (P : Platform σ) (pr : hil_proc) (vr : proc_vring)
    (a : Nat) (d : ipi_info) (r : Nat) (w : World σ) (fuel : Nat) (nonblock : Int)
    (hslot : pr.vdev.vring_info[0]? = some vr) (hdata : vr.intr_info.data = some a)
    (hd : w.ipis[a]? = some d) (hio : d.io = some r) (hnb : nonblock ≠ 0) :
    (uint32 (P.metal_io_read32 w.plat (some r) 0x10) &&& d.ipi_chn_mask = 0 →
      _poll P (fuel + 1) (some pr) nonblock w = Res.ok (-EAGAIN)
        { ipis := w.ipis, plat := w.plat
          trace := w.trace ++ [Event.read32 (some r) 0x10] }) ∧
    (uint32 (P.metal_io_read32 w.plat (some r) 0x10) &&& d.ipi_chn_mask ≠ 0 →
      _poll P (fuel + 1) (some pr) nonblock w = Res.ok 0
        { ipis := w.ipis
          plat := P.virtqueue_notification
            (P.metal_io_write32 w.plat (some r) 0x10 d.ipi_chn_mask) vr.vq
          trace := w.trace ++ [Event.read32 (some r) 0x10,
            Event.write32 (some r) 0x10 d.ipi_chn_mask,
            Event.virtqueue_notification vr.vq] }) := by
  rw [poll_enter P (fuel + 1) nonblock hslot hdata hd, hio]
  constructor
  · intro hs
    exact poll_loop_miss_nonblock P vr (some r) fuel hd hnb hs
  · intro hs
    exact poll_loop_hit P vr (some r) nonblock fuel hd hs

theorem waitTrace_counts (io : Option Nat) (k : Nat) :
    (waitTrace io k).countP Event.isRead = k ∧ (waitTrace io k).countP Event.isYield = k ∧
    (waitTrace io k).countP Event.isWrite = 0 ∧
    (waitTrace io k).countP Event.isNotification = 0 := by
  induction k with
  | zero => simp [waitTrace]
  | succ k ih =>
    obtain ⟨h1, h2, h3, h4⟩ := ih
    simp [waitTrace, List.countP_cons, Event.isRead, Event.isYield, Event.isWrite,
      Event.isNotification, h1, h2, h3, h4]

/-- The blocking loop goes through `n` rounds that find nothing pending. -/
theorem poll_loop_wait {σ : Type} (P : Platform σ) (vr : proc_vring) {a : Nat} {d : ipi_info}
    (io : Option Nat) (n : Nat) :
    ∀ (fuel : Nat) (w : World σ), w.ipis[a]? = some d →
      (∀ k, k < n → statusAt P io w.plat k &&& d.ipi_chn_mask = 0) →
      poll_loop P vr (some a) io 0 (n + fuel) w = poll_loop P vr (some a) io 0 fuel
        { ipis := w.ipis, plat := yields P n w.plat, trace := w.trace ++ waitTrace io n } := by
  induction n with
  | zero =>
    intro fuel w _ _
    simp [yields, waitTrace]
  | succ n ih =>
    intro fuel w hd hclear
    have h0 : uint32 (P.metal_io_read32 w.plat io 0x10) &&& d.ipi_chn_mask = 0 :=
      hclear 0 (Nat.succ_pos n)
    have hstep : n + 1 + fuel = (n + fuel) + 1 := by omega
    rw [hstep, poll_loop_miss_block P vr io (n + fuel) hd h0]
    have hnext : ∀ k, k < n → statusAt P io (P.metal_cpu_yield w.plat) k
        &&& d.ipi_chn_mask = 0 := fun k hk => hclear (k + 1) (Nat.succ_lt_succ hk)
    have hrest := ih fuel
      ⟨w.ipis, P.metal_cpu_yield w.plat, w.trace ++ [Event.read32 io 0x10, Event.cpu_yield]⟩
      hd hnext
    rw [hrest]
    simp [yields, waitTrace]

/-- The blocking loop does not return while nothing is pending. -/
theorem poll_loop_starve {σ : Type} (P : Platform σ) (vr : proc_vring) {a : Nat}
    {d : ipi_info} (io : Option Nat) (fuel : Nat) :
    ∀ (w : World σ), w.ipis[a]? = some d →
      (∀ k, k < fuel → statusAt P io w.plat k &&& d.ipi_chn_mask = 0) →
      poll_loop P vr (some a) io 0 fuel w = Res.timeout := by
  intro w hd hclear
  have h := poll_loop_wait P vr io fuel 0 w hd hclear
  rw [Nat.add_zero] at h
  rw [h]
  rfl

/-- C3: a blocking `_poll` on a handle whose slot 0 has a mapped channel
descriptor with mask `m`, when the channel bit is first set at the `N`-th
status read (`N = n + 1`): with enough fuel it returns 0, the calls it makes are
`n` rounds of one status read and one CPU yield followed by the status read,
the write of `m` to the status register and the ring notification, that is
exactly `N` reads, exactly `N - 1` yields and no write or notification before
the `N`-th read; it does not return in fewer than `N` rounds; and when the bit is
never set it does not return, whatever the fuel. -/
theorem poll_blocking {σ : Type} (P : Platform σ) (pr : hil_proc) (vr : proc_vring)
    (a : Nat) (d : ipi_info) (r : Nat) (w : World σ)
    (hslot : pr.vdev.vring_info[0]? = some vr) (hdata : vr.intr_info.data = some a)
    (hd : w.ipis[a]? = some d) (hio : d.io = some r) :
    (∀ n, (∀ k, k < n → statusAt P (some r) w.plat k &&& d.ipi_chn_mask = 0) →
        statusAt P (some r) w.plat n &&& d.ipi_chn_mask ≠ 0 →
      (∀ fuel, n + 1 ≤ fuel →
        _poll P fuel (some pr) 0 w = Res.ok 0
          { ipis := w.ipis
            plat := P.virtqueue_notification
              (P.metal_io_write32 (yields P n w.plat) (some r) 0x10 d.ipi_chn_mask) vr.vq
            trace := w.trace ++ (waitTrace (some r) n
              ++ hitTrace (some r) d.ipi_chn_mask vr.vq) }) ∧
      (∀ fuel, fuel ≤ n → _poll P fuel (some pr) 0 w = Res.timeout) ∧
      (waitTrace (some r) n ++ hitTrace (some r) d.ipi_chn_mask vr.vq).countP Event.isRead
        = n + 1 ∧
      (waitTrace (some r) n ++ hitTrace (some r) d.ipi_chn_mask vr.vq).countP Event.isYield
        = n ∧
      (waitTrace (some r) n).countP Event.isWrite = 0 ∧
      (waitTrace (some r) n).countP Event.isNotification = 0) ∧
    ((∀ k, statusAt P (some r) w.plat k &&& d.ipi_chn_mask = 0) →
      ∀ fuel, _poll P fuel (some pr) 0 w = Res.timeout) := by
  constructor
  · intro n hclear hset
    obtain ⟨c1, c2, c3, c4⟩ := waitTrace_counts (some r) n
    refine ⟨?_, ?_, ?_, ?_, c3, c4⟩
    · intro fuel hfuel
      obtain ⟨f, rfl⟩ : ∃ f, fuel = n + (f + 1) := ⟨fuel - (n + 1), by omega⟩
      rw [poll_enter P _ 0 hslot hdata hd, hio, poll_loop_wait P vr (some r) n (f + 1) w hd hclear]
      have hset1 : uint32 (P.metal_io_read32 (yields P n w.plat) (some r) 0x10)
          &&& d.ipi_chn_mask ≠ 0 := hset
      have hhit := @poll_loop_hit σ P vr a d (some r) 0 f
        ⟨w.ipis, yields P n w.plat, w.trace ++ waitTrace (some r) n⟩ hd hset1
      rw [hhit]
      simp [hitTrace]
    · intro fuel hfuel
      rw [poll_enter P _ 0 hslot hdata hd, hio]
      exact poll_loop_starve P vr (some r) fuel w hd
        (fun k hk => hclear k (Nat.lt_of_lt_of_le hk hfuel))
    · simp [List.countP_append, c1, hitTrace, List.countP_cons, Event.isRead]
    · simp [List.countP_append, c2, hitTrace, List.countP_cons, Event.isYield]
  · intro hclear fuel
    rw [poll_enter P _ 0 hslot hdata hd, hio]
    exact poll_loop_starve P vr (some r) fuel w hd (fun k _ => hclear k)

/-! ### Write-1-to-clear -/

theorem uint32_testBit (x i : Nat) :
    (uint32 x).testBit i = (decide (i < 32) && x.testBit i) := by
  unfold uint32
  rw [Nat.testBit_mod_two_pow]

/-- A status whose bits are those of `s` outside `m` has nothing pending for `m`. -/
theorem not_pending_of_cleared {x s m : Nat}
    (h : ∀ i, x.testBit i = (s.testBit i && !m.testBit i)) : uint32 x &&& m = 0 := by
  apply Nat.eq_of_testBit_eq
  intro i
  rw [Nat.testBit_and, uint32_testBit, h i, Nat.zero_testBit]
  cases s.testBit i <;> cases m.testBit i <;> simp

/-- A status whose bits are those of `s` outside `m` is `s & ~m`. -/
theorem clearBits_of_cleared {x s m : Nat}
    (h : ∀ i, x.testBit i = (s.testBit i && !m.testBit i)) : uint32 x = clearBits s m := by
  apply Nat.eq_of_testBit_eq
  intro i
  have hff : (0xFFFFFFFF : Nat) = 2 ^ 32 - 1 := by norm_num
  rw [clearBits, Nat.testBit_and, uint32_testBit, uint32_testBit, h i, Nat.testBit_xor, hff,
    Nat.testBit_two_pow_sub_one]
  cases s.testBit i <;> cases m.testBit i <;> cases decide (i < 32) <;> rfl

/-- A poll that returns 0 has found the channel pending at one of its status
reads, and leaves the platform as the acknowledging write and the ring
notification of that round leave it. -/
theorem poll_loop_success {σ : Type} (P : Platform σ) (vr : proc_vring) {a : Nat}
    {d : ipi_info} (io : Option Nat) (nonblock : Int) (fuel : Nat) :
    ∀ (w w1 : World σ), w.ipis[a]? = some d →
      poll_loop P vr (some a) io nonblock fuel w = Res.ok 0 w1 →
      ∃ n, statusAt P io w.plat n &&& d.ipi_chn_mask ≠ 0 ∧
        w1.plat = P.virtqueue_notification
          (P.metal_io_write32 (yields P n w.plat) io 0x10 d.ipi_chn_mask) vr.vq ∧
        w1.ipis = w.ipis := by
  induction fuel with
  | zero =>
    intro w w1 _ h
    simp [poll_loop, M.timeout] at h
  | succ fuel ih =>
    intro w w1 hd h
    by_cases hs : uint32 (P.metal_io_read32 w.plat io 0x10) &&& d.ipi_chn_mask = 0
    · by_cases hnb : nonblock = 0
      · subst hnb
        rw [poll_loop_miss_block P vr io fuel hd hs] at h
        obtain ⟨n, h1, h2, h3⟩ := ih
          ⟨w.ipis, P.metal_cpu_yield w.plat, w.trace ++ [Event.read32 io 0x10, Event.cpu_yield]⟩
          w1 hd h
        exact ⟨n + 1, h1, h2, h3⟩
      · rw [poll_loop_miss_nonblock P vr io fuel hd hnb hs] at h
        simp [EAGAIN] at h
    · rw [poll_loop_hit P vr io nonblock fuel hd hs] at h
      refine ⟨0, hs, ?_, ?_⟩
      · injection h with _ hw
        rw [← hw]
        rfl
      · injection h with _ hw
        rw [← hw]

/-- C2: under write-1-to-clear semantics of the interrupt status register, a
`_poll` (blocking or not) that returns 0 on a channel with mask `m` has found
the status `s` with `s & m ≠ 0` at its last read and leaves the status
register at `s & ~m`: every bit of `m` cleared, every other bit as it was; a
second, immediate nonblocking `_poll` then returns `-EAGAIN` after its status
read alone. -/
theorem poll_write_one_to_clear {σ : Type} (P : Platform σ) (hP : W1C P) (pr : hil_proc)
    (vr : proc_vring) (a : Nat) (d : ipi_info) (r : Nat) (w w1 : World σ) (fuel : Nat)
    (nonblock : Int)
    (hslot : pr.vdev.vring_info[0]? = some vr) (hdata : vr.intr_info.data = some a)
    (hd : w.ipis[a]? = some d) (hio : d.io = some r)
    (hret : _poll P fuel (some pr) nonblock w = Res.ok 0 w1) :
    ∃ n, uint32 (P.metal_io_read32 (yields P n w.plat) (some r) 0x10) &&& d.ipi_chn_mask ≠ 0 ∧
      (∀ i, (P.metal_io_read32 w1.plat (some r) 0x10).testBit i
        = ((P.metal_io_read32 (yields P n w.plat) (some r) 0x10).testBit i
            && !d.ipi_chn_mask.testBit i)) ∧
      uint32 (P.metal_io_read32 w1.plat (some r) 0x10)
        = clearBits (P.metal_io_read32 (yields P n w.plat) (some r) 0x10) d.ipi_chn_mask ∧
      ∀ (fuel2 : Nat) (nb : Int), nb ≠ 0 →
        _poll P (fuel2 + 1) (some pr) nb w1 = Res.ok (-EAGAIN)
          { ipis := w1.ipis, plat := w1.plat
            trace := w1.trace ++ [Event.read32 (some r) 0x10] } := by
  rw [poll_enter P fuel nonblock hslot hdata hd, hio] at hret
  obtain ⟨n, hn, hplat, hipis⟩ := poll_loop_success P vr (some r) nonblock fuel w w1 hd hret
  have hbits : ∀ i, (P.metal_io_read32 w1.plat (some r) 0x10).testBit i
      = ((P.metal_io_read32 (yields P n w.plat) (some r) 0x10).testBit i
          && !d.ipi_chn_mask.testBit i) := by
    intro i
    rw [hplat, hP.notification_frame, hP.ack]
  have hd1 : w1.ipis[a]? = some d := by rw [hipis]; exact hd
  refine ⟨n, hn, hbits, clearBits_of_cleared hbits, ?_⟩
  intro fuel2 nb hnb
  rw [poll_enter P (fuel2 + 1) nb hslot hdata hd1, hio]
  exact poll_loop_miss_nonblock P vr (some r) fuel2 hd1 hnb (not_pending_of_cleared hbits)

/-! ## Release -/

theorem getElem?_set_same {α : Type} {l : List α} {a : Nat} {d : α} (x : α)
    (h : l[a]? = some d) : (l.set a x)[a]? = some x := by
  obtain ⟨hlt, _⟩ := List.getElem?_eq_some.mp h
  exact List.getElem?_set_self hlt

/-- An iteration of the loop of `_release` when slot 1 has no descriptor. -/
theorem release_slot_unbound {σ : Type} (P : Platform σ) {pr : hil_proc} {vr : proc_vring}
    (i : Nat) (w : World σ) (hslot : pr.vdev.vring_info[1]? = some vr)
    (hdata : vr.intr_info.data = none) : release_slot P pr i w = Res.ok () w := by
  simp [release_slot, bind_ok (vring_at_some w hslot), hdata]

/-- An iteration of the loop of `_release` when the descriptor of slot 1 has no
mapped region. -/
theorem release_slot_unmapped {σ : Type} (P : Platform σ) {pr : hil_proc} {vr : proc_vring}
    {a : Nat} {d : ipi_info} (i : Nat) (w : World σ)
    (hslot : pr.vdev.vring_info[1]? = some vr) (hdata : vr.intr_info.data = some a)
    (hd : w.ipis[a]? = some d) (hio : d.io = none) :
    release_slot P pr i w = Res.ok () w := by
  simp [release_slot, bind_ok (vring_at_some w hslot), hdata, bind_ok (deref_some hd), hio]

/-- An iteration of the loop of `_release` when the descriptor of slot 1 has a
mapped region. -/
theorem release_slot_mapped {σ : Type} (P : Platform σ) {pr : hil_proc} {vr : proc_vring}
    {a : Nat} {d : ipi_info} (i : Nat) (w : World σ)
    (hslot : pr.vdev.vring_info[1]? = some vr) (hdata : vr.intr_info.data = some a)
    (hd : w.ipis[a]? = some d) (hio : d.io ≠ none) :
    release_slot P pr i w = Res.ok ()
      { ipis := w.ipis.set a { d with dev := none, io := none }
        plat := teardownPlat P w.plat d
        trace := w.trace ++ teardownTrace d } := by
  by_cases hdev : d.dev = none
  · simp [release_slot, M.bind, vring_at, hslot, hdata, deref, hd, hio, hdev,
      metal_io_write32, metal_free_memory, assign, teardownPlat, teardownTrace, IPI_IDR_OFFSET]
  · simp [release_slot, M.bind, vring_at, hslot, hdata, deref, hd, hio, hdev,
      metal_io_write32, metal_device_close, assign, teardownPlat, teardownTrace,
      IPI_IDR_OFFSET, getElem?_set_same _ hd, List.set_set]

/-- Once slot 1 has nothing mapped, the loop of `_release` does nothing. -/
theorem release_loop_idle {σ : Type} (P : Platform σ) (pr : hil_proc) (w : World σ)
    (hidle : ∀ i, release_slot P pr i w = Res.ok () w) :
    ∀ (k i : Nat), release_loop P pr i k w = Res.ok () w := by
  intro k
  induction k with
  | zero => intro i; rfl
  | succ k ih =>
    intro i
    simp only [release_loop, bind_run, bind_ok (hidle i)]
    exact ih (i + 1)

/-- What the loop of `_release` does: at most the teardown of the descriptor of
slot 1, in its first iteration; running it again changes nothing. -/
theorem release_loop_spec {σ : Type} (P : Platform σ) (pr : hil_proc) (w : World σ)
    (k : Nat) (hvalid : 0 < k → slotValid pr w.ipis 1 = true) :
    ∃ (w1 : World σ) (added : List Event),
      release_loop P pr 0 k w = Res.ok () w1 ∧ w1.trace = w.trace ++ added ∧
      (added = [] ∨ ∃ d, d.io ≠ none ∧ added = teardownTrace d) ∧
      ∀ (k2 i : Nat), 0 < k → release_loop P pr i k2 w1 = Res.ok () w1 := by
  cases k with
  | zero =>
    exact ⟨w, [], rfl, by simp, Or.inl rfl, fun _ _ h => absurd h (Nat.lt_irrefl 0)⟩
  | succ k =>
    have hv := hvalid (Nat.succ_pos k)
    unfold slotValid at hv
    cases hslot : pr.vdev.vring_info[1]? with
    | none => simp [hslot] at hv
    | some vr =>
      cases hdata : vr.intr_info.data with
      | none =>
        have hidle : ∀ i, release_slot P pr i w = Res.ok () w :=
          fun i => release_slot_unbound P i w hslot hdata
        exact ⟨w, [], release_loop_idle P pr w hidle _ _, by simp, Or.inl rfl,
          fun k2 i _ => release_loop_idle P pr w hidle k2 i⟩
      | some a =>
        simp [hslot, hdata] at hv
        obtain ⟨d, hd⟩ : ∃ d, w.ipis[a]? = some d :=
          ⟨w.ipis[a], List.getElem?_eq_some.mpr ⟨hv, rfl⟩⟩
        cases hio : d.io with
        | none =>
          have hidle : ∀ i, release_slot P pr i w = Res.ok () w :=
            fun i => release_slot_unmapped P i w hslot hdata hd hio
          exact ⟨w, [], release_loop_idle P pr w hidle _ _, by simp, Or.inl rfl,
            fun k2 i _ => release_loop_idle P pr w hidle k2 i⟩
        | some r =>
          have hio1 : d.io ≠ none := by simp [hio]
          have hfirst := release_slot_mapped P 0 w hslot hdata hd hio1
          have hidle : ∀ i, release_slot P pr i
              ⟨w.ipis.set a { d with dev := none, io := none }, teardownPlat P w.plat d,
                w.trace ++ teardownTrace d⟩
              = Res.ok () ⟨w.ipis.set a { d with dev := none, io := none },
                teardownPlat P w.plat d, w.trace ++ teardownTrace d⟩ :=
            fun i => release_slot_unmapped P i _ hslot hdata (getElem?_set_same _ hd) rfl
          refine ⟨_, teardownTrace d, ?_, rfl, Or.inr ⟨d, hio1, rfl⟩,
            fun k2 i _ => release_loop_idle P pr _ hidle k2 i⟩
          simp only [release_loop, bind_run, bind_ok hfirst]
          exact release_loop_idle P pr _ hidle k 1

/-- C8: `_release` on an absent handle, or on a present handle whose slot 1
is well formed, returns; the calls it makes are none at all or the teardown of
one descriptor (one write to the interrupt disable register, then one device
close or one free), so it closes or frees at most once however many times the
loop runs; and a second `_release` right after it returns having made no call
and changed nothing. -/
theorem release_idempotent {σ : Type} (P : Platform σ) (HIL_MAX_NUM_VRINGS : Nat)
    (proc : Option hil_proc) (w : World σ)
    (hvalid : ∀ pr, proc = some pr → 0 < HIL_MAX_NUM_VRINGS → slotValid pr w.ipis 1 = true) :
    ∃ (w1 : World σ) (added : List Event),
      _release P HIL_MAX_NUM_VRINGS proc w = Res.ok () w1 ∧
      w1.trace = w.trace ++ added ∧
      (added = [] ∨ ∃ d, d.io ≠ none ∧ added = teardownTrace d) ∧
      added.countP Event.isTeardown ≤ 1 ∧
      _release P HIL_MAX_NUM_VRINGS proc w1 = Res.ok () w1 := by
  have hcount : ∀ added : List Event,
      (added = [] ∨ ∃ d : ipi_info, d.io ≠ none ∧ added = teardownTrace d) →
      added.countP Event.isTeardown ≤ 1 := by
    intro added h
    rcases h with h | ⟨d, _, h⟩
    · simp [h]
    · subst h
      by_cases hdev : d.dev = none <;>
        simp [teardownTrace, hdev, List.countP_cons, Event.isTeardown]
  cases proc with
  | none => exact ⟨w, [], rfl, by simp, Or.inl rfl, by simp, rfl⟩
  | some pr =>
    obtain ⟨w1, added, h1, h2, h3, h4⟩ :=
      release_loop_spec P pr w HIL_MAX_NUM_VRINGS (hvalid pr rfl)
    refine ⟨w1, added, h1, h2, h3, hcount added h3, ?_⟩
    cases hn : HIL_MAX_NUM_VRINGS with
    | zero => rfl
    | succ n => exact h4 (n + 1) 0 (by omega)

/-! ## Missing descriptors -/

/-- C9 (code defect): on a handle whose ring slot 0 has no channel descriptor,
`_poll` dereferences the null descriptor pointer (`io = ipi->io`) before any
register access, in blocking and in nonblocking mode alike, whereas `_notify`
on a binding without descriptor returns having done nothing. -/
theorem poll_null_descriptor_fault {σ : Type} (P : Platform σ) (fuel : Nat) (nonblock : Int)
    (vq : Option Nat) (vect_id : Nat) (rest : List proc_vring) (w : World σ) :
    _poll P fuel
        (some { vdev := { vring_info :=
          { vq := vq, intr_info := { vect_id := vect_id, data := none } } :: rest } })
        nonblock w
      = Res.fault Fault.nullDeref ∧
    _notify P none (some { vect_id := vect_id, data := none }) w = Res.ok () w := by
  constructor
  · simp [_poll, M.bind, vring_at, deref]
  · simp [_notify]

/-- C10 (code defect): on a present handle whose first ring slot has no channel
descriptor, `_initialize` dereferences the null descriptor pointer in the test
`ipi->paddr` of its `else if`; it neither skips the slot nor goes on to the
next one. -/
theorem initialize_null_descriptor_fault {σ : Type} (P : Platform σ) (n : Nat)
    (vq : Option Nat) (vect_id : Nat) (rest : List proc_vring) (w : World σ) :
    _initialize P (n + 1)
        (some { vdev := { vring_info :=
          { vq := vq, intr_info := { vect_id := vect_id, data := none } } :: rest } }) w
      = Res.fault Fault.nullDeref := by
  simp [ _initialize, init_loop, init_slot, init_bind, M.bind, vring_at, deref]

/-! ## Teardown of the ring slots -/

/-- C7 (code defect): with both ring slots mapped (slot 0 through device 7 and
region 1, mask 1; slot 1 through a raw mapping, region 2, mask 2), `_release`
with two ring slots tears down slot 1 only: its calls are the disable write and
the free for region 2, and the descriptor of slot 0 keeps its region and its
open device. The same holds for `_release` right after a successful
`_initialize` of the two slots: the device of slot 0 is never closed and its
region stays mapped. -/
theorem release_skips_slot_zero :
    ( _release simPlatform 2 (some (proc2 (some 0) (some 1))) bothMappedWorld).trace?
      = some [Event.write32 (some 2) 0x1C 2, Event.free_memory (some 2)] ∧
    ( _release simPlatform 2 (some (proc2 (some 0) (some 1))) bothMappedWorld).ipis?
      = some [mappedIpi (some 7) 1 1,
          { name := none, bus_name := none, dev := none, io := none, paddr := 0,
            ipi_chn_mask := 2, need_reg := 0, sync := 1 }] ∧
    (( _initialize simPlatform 2 (some (proc2 (some 0) (some 1))) >>=
        fun r => _release simPlatform 2 r.2) bothBindingsWorld).trace?
      = some [Event.device_open "b" "d0", Event.read32 (some 1) 0x10,
          Event.write32 (some 1) 0x10 1, Event.write32 (some 1) 0x1C 1,
          Event.allocate_memory 64, Event.io_init (some 2) 0x8000 0x8000 0x1000 0xFFFFFFFF 3,
          Event.read32 (some 2) 0x10, Event.write32 (some 2) 0x10 2,
          Event.write32 (some 2) 0x1C 2,
          Event.write32 (some 2) 0x1C 2, Event.free_memory (some 2)] ∧
    (( _initialize simPlatform 2 (some (proc2 (some 0) (some 1))) >>=
        fun r => _release simPlatform 2 r.2) bothBindingsWorld).ipis?
      = some [{ name := some "d0", bus_name := some "b", dev := some 7, io := some 1,
                paddr := 0, ipi_chn_mask := 1, need_reg := 0, sync := 1 },
              { name := none, bus_name := none, dev := none, io := none,
                paddr := 0x8000, ipi_chn_mask := 2, need_reg := 0, sync := 1 }] := by
  refine ⟨?_, ?_, ?_, ?_⟩ <;> decide!

/-- C6 (code defect): two failures of `_initialize` after slot 0 was set up.
When the device of slot 1 fails to open, `_initialize` returns `-ENODEV` at once:
no `_release`, the last call is the failed open, and the descriptor of slot 0
keeps its region 1 and its open device 7. When the allocation for slot 1 fails,
`_release` runs but looks at slot 1 only: the function returns -1, nothing is
freed, and the descriptor of slot 0 keeps its region 1. -/
theorem initialize_failure_leaves_slot_zero :
    (( _initialize simPlatform 2 (some (proc2 (some 0) (some 1)))
        (simWorld [namedIpi "b" "d0" 1, namedIpi "b" "d1" 2] simOneDevice)).val?.map Prod.fst
      = some (-ENODEV) ∧
    ( _initialize simPlatform 2 (some (proc2 (some 0) (some 1)))
        (simWorld [namedIpi "b" "d0" 1, namedIpi "b" "d1" 2] simOneDevice)).trace?
      = some [Event.device_open "b" "d0", Event.read32 (some 1) 0x10,
          Event.write32 (some 1) 0x10 1, Event.write32 (some 1) 0x1C 1,
          Event.device_open "b" "d1"] ∧
    ( _initialize simPlatform 2 (some (proc2 (some 0) (some 1)))
        (simWorld [namedIpi "b" "d0" 1, namedIpi "b" "d1" 2] simOneDevice)).ipis?
      = some [{ name := some "d0", bus_name := some "b", dev := some 7, io := some 1,
                paddr := 0, ipi_chn_mask := 1, need_reg := 0, sync := 1 },
              namedIpi "b" "d1" 2]) ∧
    (( _initialize simPlatform 2 (some (proc2 (some 0) (some 1)))
        (simWorld [rawIpi 0x8000 1, rawIpi 0x8000 2] simOneAllocation)).val?.map Prod.fst
      = some (-1) ∧
    ( _initialize simPlatform 2 (some (proc2 (some 0) (some 1)))
        (simWorld [rawIpi 0x8000 1, rawIpi 0x8000 2] simOneAllocation)).trace?
      = some [Event.allocate_memory 64,
          Event.io_init (some 1) 0x8000 0x8000 0x1000 0xFFFFFFFF 3,
          Event.read32 (some 1) 0x10, Event.write32 (some 1) 0x10 1,
          Event.write32 (some 1) 0x1C 1, Event.allocate_memory 64] ∧
    ( _initialize simPlatform 2 (some (proc2 (some 0) (some 1)))
        (simWorld [rawIpi 0x8000 1, rawIpi 0x8000 2] simOneAllocation)).ipis?
      = some [{ name := none, bus_name := none, dev := none, io := some 1,
                paddr := 0x8000, ipi_chn_mask := 1, need_reg := 0, sync := 1 },
              rawIpi 0x8000 2]) := by
  refine ⟨⟨?_, ?_, ?_⟩, ⟨?_, ?_, ?_⟩⟩ <;> decide!

/-! ## Initialization -/

section Init

variable {σ : Type} {P : Platform σ}

theorem Frame.refl (ipi : Option Nat) (w : World σ) : Frame P ipi w w :=
  ⟨fun _ _ => rfl, fun _ _ _ h => h, ⟨[], by simp⟩⟩

theorem Frame.trans {ipi : Option Nat} {w w1 w2 : World σ} (h1 : Frame P ipi w w1)
    (h2 : Frame P ipi w1 w2) : Frame P ipi w w2 := by
  refine ⟨fun b hb => ?_, fun hP r m h => h2.quiet hP r m (h1.quiet hP r m h), ?_⟩
  · rw [h2.others b hb, h1.others b hb]
  · obtain ⟨a1, e1⟩ := h1.trace
    obtain ⟨a2, e2⟩ := h2.trace
    exact ⟨a1 ++ a2, by rw [e2, e1, List.append_assoc]⟩

/-- A frame around any descriptor is a frame for the whole store when nothing
in the store changed. -/
theorem Frame.of_same_ipis {ipi : Option Nat} {w w1 : World σ} (hi : w1.ipis = w.ipis)
    (hq : W1C P → ∀ r m, notPending P w.plat r m → notPending P w1.plat r m)
    (ht : ∃ added, w1.trace = w.trace ++ added) : Frame P ipi w w1 :=
  ⟨fun _ _ => by rw [hi], hq, ht⟩

theorem bind_ok_inv {α β : Type} {m : M σ α} {f : α → M σ β} {w w2 : World σ} {y : β}
    (h : (m >>= f) w = Res.ok y w2) : ∃ x w1, m w = Res.ok x w1 ∧ f x w1 = Res.ok y w2 := by
  simp only [bind_run, M.bind] at h
  cases hm : m w with
  | ok x w1 =>
    rw [hm] at h
    exact ⟨x, w1, rfl, h⟩
  | fault e => rw [hm] at h; cases h
  | timeout => rw [hm] at h; cases h

theorem post_pure {α : Type} {ipi : Option Nat} {Q : α → Prop} {x : α} (h : Q x) :
    Post P ipi Q (pure x : M σ α) := by
  intro w y w1 hrun
  cases hrun
  exact ⟨h, Frame.refl ipi w⟩

theorem post_bind {α β : Type} {ipi : Option Nat} {R : α → Prop} {Q : β → Prop}
    {m : M σ α} {f : α → M σ β} (h1 : Post P ipi R m) (h2 : ∀ x, R x → Post P ipi Q (f x)) :
    Post P ipi Q (m >>= f) := by
  intro w y w2 hrun
  obtain ⟨x, w1, hm, hf⟩ := bind_ok_inv hrun
  obtain ⟨q1, f1⟩ := h1 w x w1 hm
  obtain ⟨q, f2⟩ := h2 x q1 w1 y w2 hf
  exact ⟨q, f1.trans f2⟩

theorem post_ite {α : Type} {ipi : Option Nat} {Q : α → Prop} {c : Prop} [Decidable c]
    {m1 m2 : M σ α} (h1 : c → Post P ipi Q m1) (h2 : ¬c → Post P ipi Q m2) :
    Post P ipi Q (if c then m1 else m2) := by
  by_cases hc : c
  · simp only [hc, if_true]; exact h1 hc
  · simp only [hc, if_false]; exact h2 hc

/-- A status whose bits are among those of another has nothing pending where
the other has nothing pending. -/
theorem notPending_of_bits_le {x y m : Nat}
    (hle : ∀ i, x.testBit i = true → y.testBit i = true) (h : uint32 y &&& m = 0) :
    uint32 x &&& m = 0 := by
  apply Nat.eq_of_testBit_eq
  intro i
  have hy : (uint32 y &&& m).testBit i = false := by rw [h, Nat.zero_testBit]
  rw [Nat.testBit_and, uint32_testBit] at hy
  rw [Nat.testBit_and, uint32_testBit, Nat.zero_testBit]
  cases hx : x.testBit i
  · simp
  · rw [hle i hx] at hy
    simpa using hy

theorem post_deref (ipi : Option Nat) :
    Post P ipi (fun _ => True) (deref ipi : M σ ipi_info) := by
  intro w x w1 hrun
  unfold deref at hrun
  split at hrun
  · cases hrun
  · split at hrun
    · cases hrun
    · cases hrun
      exact ⟨trivial, Frame.refl _ w⟩

theorem post_assign (ipi : Option Nat) (f : ipi_info → ipi_info) :
    Post P ipi (fun _ => True) (assign ipi f : M σ Unit) := by
  intro w x w1 hrun
  unfold assign at hrun
  split at hrun
  · cases hrun
  · rename_i a
    split at hrun
    · cases hrun
    · cases hrun
      refine ⟨trivial, fun b hb => ?_, fun _ _ _ h => h, ⟨[], by simp⟩⟩
      have hne : a ≠ b := fun e => hb (by rw [e])
      exact List.getElem?_set_ne hne

theorem post_vring_at (ipi : Option Nat) (pr : hil_proc) (i : Nat) :
    Post P ipi (fun vr => pr.vdev.vring_info[i]? = some vr) (vring_at pr i : M σ proc_vring) := by
  intro w x w1 hrun
  unfold vring_at at hrun
  split at hrun
  · cases hrun
  · rename_i v hv
    cases hrun
    exact ⟨hv, Frame.refl ipi w⟩

theorem post_write32 (ipi io : Option Nat) (off v : Nat) :
    Post P ipi (fun _ => True) (metal_io_write32 P io off v) := by
  intro w x w1 hrun
  cases hrun
  exact ⟨trivial, Frame.of_same_ipis rfl
    (fun hP r m h => notPending_of_bits_le (hP.write_frame w.plat r io off v) h) ⟨_, rfl⟩⟩

theorem post_device_open (ipi : Option Nat) (bus_name dev_name : String) :
    Post P ipi (fun _ => True) (metal_device_open P bus_name dev_name) := by
  intro w x w1 hrun
  cases hrun
  refine ⟨trivial, Frame.of_same_ipis rfl (fun hP r m h => ?_) ⟨_, rfl⟩⟩
  unfold notPending
  rw [hP.open_frame]
  exact h

theorem post_device_io_region (ipi dev : Option Nat) (index : Nat) :
    Post P ipi (fun _ => True) (metal_device_io_region P dev index) := by
  intro w x w1 hrun
  cases hrun
  exact ⟨trivial, Frame.refl ipi w⟩

theorem post_dev_irq_info (ipi dev : Option Nat) :
    Post P ipi (fun _ => True) (dev_irq_info P dev) := by
  intro w x w1 hrun
  unfold dev_irq_info at hrun
  split at hrun
  · cases hrun
  · cases hrun
    exact ⟨trivial, Frame.refl ipi w⟩

theorem post_allocate_memory (ipi : Option Nat) (size : Nat) :
    Post P ipi (fun _ => True) (metal_allocate_memory P size) := by
  intro w x w1 hrun
  cases hrun
  refine ⟨trivial, Frame.of_same_ipis rfl (fun hP r m h => ?_) ⟨_, rfl⟩⟩
  unfold notPending
  rw [hP.allocate_frame]
  exact h

theorem post_io_init (ipi io : Option Nat)
    (virt physmap size page_shift mem_flags : Nat) :
    Post P ipi (fun _ => True)
      (metal_io_init P io virt physmap size page_shift mem_flags) := by
  intro w x w1 hrun
  cases hrun
  refine ⟨trivial, Frame.of_same_ipis rfl (fun hP r m h => ?_) ⟨_, rfl⟩⟩
  unfold notPending
  rw [hP.io_init_frame]
  exact h

theorem binding_set_vect_id (pr : hil_proc) (i v j : Nat) :
    binding (set_vect_id pr i v) j = binding pr j := by
  unfold set_vect_id
  cases hi : pr.vdev.vring_info[i]? with
  | none => rfl
  | some r =>
    simp only [binding]
    by_cases hij : i = j
    · subst hij
      rw [getElem?_set_same _ hi, hi]
    · rw [List.getElem?_set_ne hij]

/-- The binding half of an iteration of `_initialize` works on the descriptor
of slot `i` only and leaves the bindings of the handle as they are. -/
theorem post_init_bind (pr : hil_proc) (i : Nat) (w w1 : World σ)
    (x : Ctl × hil_proc) (hrun : init_bind P pr i w = Res.ok x w1) :
    ((∀ j, binding x.2 j = binding pr j) ∧ x.1 ≠ Ctl.ret 0) ∧
      Frame P (binding pr i) w w1 := by
  unfold init_bind at hrun
  obtain ⟨vr, w0, hvr, hrest⟩ := bind_ok_inv hrun
  obtain ⟨hslot, f0⟩ := post_vring_at (P := P) (binding pr i) pr i w vr w0 hvr
  have hb : binding pr i = vr.intr_info.data := by simp [binding, hslot]
  rw [hb] at f0 ⊢
  have key : Post P vr.intr_info.data
      (fun y : Ctl × hil_proc => (∀ j, binding y.2 j = binding pr j) ∧ y.1 ≠ Ctl.ret 0)
      (do
        let named ← (if vr.intr_info.data = none then (pure false : M σ Bool) else do
          let d ← deref vr.intr_info.data
          pure (d.name.isSome && d.bus_name.isSome))
        if named then do
          let d ← deref vr.intr_info.data
          let r ← metal_device_open P (d.bus_name.getD "") (d.name.getD "")
          if r.1 ≠ 0 then
            pure (Ctl.ret (-ENODEV), pr)
          else do
            assign vr.intr_info.data (fun x => { x with dev := r.2 })
            let io ← metal_device_io_region P r.2 0
            assign vr.intr_info.data (fun x => { x with io := io })
            let v ← dev_irq_info P r.2
            pure (Ctl.next, set_vect_id pr i v)
        else do
          let d ← deref vr.intr_info.data
          if d.paddr ≠ 0 then do
            let io ← metal_allocate_memory P P.sizeof_metal_io_region
            assign vr.intr_info.data (fun x => { x with io := io })
            if io = none then
              pure (Ctl.error, pr)
            else do
              metal_io_init P io d.paddr d.paddr 0x1000 (2 ^ 32 - 1)
                (P.METAL_UNCACHED ||| P.METAL_IO_MAPPED)
              pure (Ctl.next, pr)
          else
            pure (Ctl.next, pr)) := by
    refine post_bind (R := fun _ => True) ?_ (fun named _ => ?_)
    · exact post_ite (fun _ => post_pure trivial)
        (fun _ => post_bind (post_deref _) (fun _ _ => post_pure trivial))
    · refine post_ite (fun _ => ?_) (fun _ => ?_)
      · refine post_bind (post_deref _) (fun d _ => ?_)
        refine post_bind (post_device_open _ _ _) (fun r _ => ?_)
        refine post_ite (fun _ => post_pure ⟨fun _ => rfl, by simp [ENODEV]⟩) (fun _ => ?_)
        refine post_bind (post_assign _ _) (fun _ _ => ?_)
        refine post_bind (post_device_io_region _ _ _) (fun io _ => ?_)
        refine post_bind (post_assign _ _) (fun _ _ => ?_)
        refine post_bind (post_dev_irq_info _ _) (fun v _ => ?_)
        exact post_pure ⟨fun j => binding_set_vect_id pr i v j, by simp⟩
      · refine post_bind (post_deref _) (fun d _ => ?_)
        refine post_ite (fun _ => ?_) (fun _ => post_pure ⟨fun _ => rfl, by simp⟩)
        refine post_bind (post_allocate_memory _ _) (fun io _ => ?_)
        refine post_bind (post_assign _ _) (fun _ _ => ?_)
        refine post_ite (fun _ => post_pure ⟨fun _ => rfl, by simp⟩) (fun _ => ?_)
        exact post_bind (post_io_init _ _ _ _ _ _ _)
          (fun _ _ => post_pure ⟨fun _ => rfl, by simp⟩)
  obtain ⟨q, f1⟩ := key w0 x w1 hrest
  exact ⟨q, f0.trans f1⟩

/-- The acknowledging half of an iteration of `_initialize`: it works on the
descriptor of slot `i` only, keeps its region and mask, and when the region is
mapped it writes the mask to the interrupt disable register and, under
write-1-to-clear semantics, leaves nothing pending for the mask. -/
theorem init_quiesce_spec (pr : hil_proc) (i : Nat) (w w1 : World σ)
    (hrun : init_quiesce P pr i w = Res.ok () w1) :
    ∃ a d d1, binding pr i = some a ∧ w.ipis[a]? = some d ∧ w1.ipis[a]? = some d1 ∧
      d1.io = d.io ∧ d1.ipi_chn_mask = d.ipi_chn_mask ∧
      Frame P (some a) w w1 ∧
      (d.io ≠ none → ∃ added, w1.trace = w.trace ++ added ∧
        Event.write32 d.io 0x1C d.ipi_chn_mask ∈ added ∧
        (W1C P → notPending P w1.plat d.io d.ipi_chn_mask)) := by
  cases hslot : pr.vdev.vring_info[i]? with
  | none => simp [init_quiesce, M.bind, vring_at, hslot] at hrun
  | some vr =>
    cases hdata : vr.intr_info.data with
    | none => simp [init_quiesce, M.bind, vring_at, hslot, hdata, deref] at hrun
    | some a =>
      cases hda : w.ipis[a]? with
      | none => simp [init_quiesce, M.bind, vring_at, hslot, hdata, deref, hda] at hrun
      | some d =>
        have hb : binding pr i = some a := by simp [binding, hslot, hdata]
        by_cases hio : d.io = none
        · simp [init_quiesce, M.bind, vring_at, hslot, hdata, deref, hda, hio] at hrun
          subst hrun
          exact ⟨a, d, d, hb, hda, hda, rfl, rfl, Frame.refl _ _, fun h => absurd hio h⟩
        · by_cases hit : uint32 (P.metal_io_read32 w.plat d.io 0x10) &&& d.ipi_chn_mask = 0
          · simp [init_quiesce, M.bind, vring_at, hslot, hdata, deref, hda, hio, hit,
              metal_io_read32, metal_io_write32, assign, IPI_ISR_OFFSET, IPI_IDR_OFFSET] at hrun
            subst hrun
            refine ⟨a, d, { d with sync := 1 }, hb, hda, getElem?_set_same _ hda, rfl, rfl,
              ⟨fun b hb1 => ?_, fun hP r m h => ?_, ⟨_, rfl⟩⟩,
              fun _ => ⟨_, rfl, ?_, fun hP => ?_⟩⟩
            · have hne : a ≠ b := fun e => hb1 (by rw [e])
              exact List.getElem?_set_ne hne
            · exact notPending_of_bits_le (hP.write_frame w.plat r d.io 0x1C d.ipi_chn_mask) h
            · simp
            · exact notPending_of_bits_le
                (hP.write_frame w.plat d.io d.io 0x1C d.ipi_chn_mask) hit
          · simp [init_quiesce, M.bind, vring_at, hslot, hdata, deref, hda, hio, hit,
              metal_io_read32, metal_io_write32, assign, IPI_ISR_OFFSET, IPI_IDR_OFFSET] at hrun
            subst hrun
            refine ⟨a, d, { d with sync := 1 }, hb, hda, getElem?_set_same _ hda, rfl, rfl,
              ⟨fun b hb1 => ?_, fun hP r m h => ?_, ⟨_, rfl⟩⟩,
              fun _ => ⟨_, rfl, ?_, fun hP => ?_⟩⟩
            · have hne : a ≠ b := fun e => hb1 (by rw [e])
              exact List.getElem?_set_ne hne
            · exact notPending_of_bits_le (hP.write_frame _ r d.io 0x1C d.ipi_chn_mask)
                (notPending_of_bits_le (hP.write_frame w.plat r d.io 0x10 d.ipi_chn_mask) h)
            · simp
            · exact notPending_of_bits_le (hP.write_frame _ d.io d.io 0x1C d.ipi_chn_mask)
                (not_pending_of_cleared (hP.ack w.plat d.io d.ipi_chn_mask))

/-- One iteration of the loop of `_initialize` that goes on to the next slot. -/
theorem init_slot_spec (pr : hil_proc) (i : Nat) (w w1 : World σ) (c : Ctl)
    (pr1 : hil_proc) (hrun : init_slot P pr i w = Res.ok (c, pr1) w1) :
    c ≠ Ctl.ret 0 ∧ (∀ j, binding pr1 j = binding pr j) ∧
    (c = Ctl.next → ∃ a, binding pr i = some a ∧ Frame P (some a) w w1 ∧
      ∀ d1, w1.ipis[a]? = some d1 → d1.io ≠ none →
        ∃ added, w1.trace = w.trace ++ added ∧
          Event.write32 d1.io 0x1C d1.ipi_chn_mask ∈ added ∧
          (W1C P → notPending P w1.plat d1.io d1.ipi_chn_mask)) := by
  unfold init_slot at hrun
  obtain ⟨r, w0, hbind, hrest⟩ := bind_ok_inv hrun
  obtain ⟨⟨hsame, hret⟩, f0⟩ := post_init_bind pr i w w0 r hbind
  cases hc : r.1 with
  | next =>
    simp only [hc] at hrest
    obtain ⟨u, w2, hq, hp⟩ := bind_ok_inv hrest
    cases hp
    obtain ⟨a, d, d1, hb, hd, hd1, hio, hmask, f1, hmapped⟩ :=
      init_quiesce_spec r.2 i w0 w1 hq
    have hb0 : binding pr i = some a := by rw [← hsame i]; exact hb
    rw [hb0] at f0
    refine ⟨by simp, hsame, fun _ => ⟨a, hb0, f0.trans f1, fun d2 hd2 hio2 => ?_⟩⟩
    have e : d2 = d1 := by
      rw [hd1] at hd2
      exact (Option.some.inj hd2).symm
    subst e
    rw [hio] at hio2
    obtain ⟨added, ht, hmem, hnp⟩ := hmapped hio2
    obtain ⟨added0, ht0⟩ := f0.trace
    refine ⟨added0 ++ added, by rw [ht, ht0, List.append_assoc], ?_, ?_⟩
    · rw [hio, hmask]
      exact List.mem_append_right _ hmem
    · rw [hio, hmask]
      exact hnp
  | ret v =>
    simp only [hc, pure_run] at hrest
    cases hrest
    rw [hc] at hret
    exact ⟨hret, hsame, fun h => by cases h⟩
  | error =>
    simp only [hc, pure_run] at hrest
    cases hrest
    exact ⟨by simp, hsame, fun h => by cases h⟩

/-- The loop of `_initialize` over the slots `i ≤ j < i + k`. -/
theorem init_loop_spec (k : Nat) :
    ∀ (pr : hil_proc) (i : Nat) (w w1 : World σ) (c : Ctl) (pr1 : hil_proc),
      init_loop P pr i k w = Res.ok (c, pr1) w1 →
      c ≠ Ctl.ret 0 ∧ (∀ j, binding pr1 j = binding pr j) ∧
      (c = Ctl.next → Quiesced P pr i (i + k) w w1) := by
  induction k with
  | zero =>
    intro pr i w w1 c pr1 hrun
    simp only [init_loop, pure_run] at hrun
    cases hrun
    refine ⟨by simp, fun _ => rfl, fun _ => ⟨⟨[], by simp, ?_⟩, fun _ _ => rfl, fun _ _ _ h => h⟩⟩
    intro j a d h1 h2
    omega
  | succ k ih =>
    intro pr i w w1 c pr1 hrun
    unfold init_loop at hrun
    obtain ⟨r, w0, hslot, hrest⟩ := bind_ok_inv hrun
    obtain ⟨hret0, hsame0, hnext0⟩ := init_slot_spec pr i w w0 r.1 r.2 hslot
    cases hc : r.1 with
    | ret v =>
      simp only [hc, pure_run] at hrest
      cases hrest
      rw [hc] at hret0
      exact ⟨hret0, hsame0, fun h => by cases h⟩
    | error =>
      simp only [hc, pure_run] at hrest
      cases hrest
      exact ⟨by simp, hsame0, fun h => by cases h⟩
    | next =>
      simp only [hc] at hrest
      obtain ⟨hret1, hsame1, hnext1⟩ := ih r.2 (i + 1) w0 w1 c pr1 hrest
      refine ⟨hret1, fun j => by rw [hsame1 j, hsame0 j], fun hcn => ?_⟩
      obtain ⟨a, hb, f0, hmapped⟩ := hnext0 hc
      obtain ⟨⟨added1, ht1, hdis1⟩, hoth1, hq1⟩ := hnext1 hcn
      obtain ⟨added0, ht0⟩ := f0.trace
      refine ⟨⟨added0 ++ added1, by rw [ht1, ht0, List.append_assoc], ?_⟩, ?_, ?_⟩
      · intro j b d hlo hhi hbj hd hio
        by_cases hlater : ∃ j1, i + 1 ≤ j1 ∧ j1 < i + 1 + k ∧ binding r.2 j1 = some b
        · obtain ⟨j1, h1, h2, h3⟩ := hlater
          obtain ⟨hmem, hnp⟩ := hdis1 j1 b d h1 h2 h3 hd hio
          exact ⟨List.mem_append_right _ hmem, hnp⟩
        · have hji : j = i := by
            by_contra hne
            exact hlater ⟨j, by omega, by omega, by rw [hsame0 j]; exact hbj⟩
          subst hji
          have hab : a = b := by
            rw [hb] at hbj
            exact Option.some.inj hbj
          subst hab
          have hkeep : w1.ipis[a]? = w0.ipis[a]? :=
            hoth1 a (fun j1 h1 h2 h3 => hlater ⟨j1, h1, h2, h3⟩)
          rw [hkeep] at hd
          obtain ⟨added, ht, hmem, hnp⟩ := hmapped d hd hio
          have hadd : added = added0 := List.append_cancel_left (ht.symm.trans ht0)
          subst hadd
          exact ⟨List.mem_append_left _ hmem, fun hP => hq1 hP _ _ (hnp hP)⟩
      · intro b hb1
        have h1 : w1.ipis[b]? = w0.ipis[b]? :=
          hoth1 b (fun j h1 h2 h3 => hb1 j (by omega) (by omega) (by rw [← hsame0 j]; exact h3))
        have h2 : w0.ipis[b]? = w.ipis[b]? :=
          f0.others b (fun e => hb1 i (Nat.le_refl i) (by omega) (by rw [hb, e]))
        rw [h1, h2]
      · intro hP r1 m h
        exact hq1 hP r1 m (f0.quiet hP r1 m h)

end Init

/-- The simulated register block has write-1-to-clear status registers. -/
theorem simPlatform_w1c : W1C simPlatform where
  ack := by
    intro s io v i
    simp [simPlatform, Sim.setReg, IPI_ISR_OFFSET]
    cases (s.regs io 16).testBit i <;> cases v.testBit i <;> rfl
  write_frame := by
    intro s io io1 off v i
    simp only [simPlatform]
    by_cases h1 : off = IPI_ISR_OFFSET
    · by_cases h2 : io = io1
      · subst h2
        simp [h1, Sim.setReg, IPI_ISR_OFFSET]
        intro h _
        exact h
      · simp [h1, Sim.setReg, IPI_ISR_OFFSET, h2]
    · by_cases h3 : off = IPI_IDR_OFFSET
      · simp [h3, Sim.setReg, IPI_ISR_OFFSET, IPI_IDR_OFFSET, IPI_IMR_OFFSET]
      · by_cases h4 : off = IPI_IER_OFFSET
        · simp [h4, Sim.setReg, IPI_ISR_OFFSET, IPI_IDR_OFFSET, IPI_IMR_OFFSET,
            IPI_IER_OFFSET]
        · simp [h1, h3, h4]
  notification_frame := by
    intro s vq io
    rfl
  open_frame := by
    intro s bus_name dev_name io
    simp only [simPlatform]
    cases s.findDevice bus_name dev_name <;> rfl
  allocate_frame := by
    intro s size io
    simp only [simPlatform]
    cases s.heap <;> rfl
  io_init_frame := by
    intro s io1 virt physmap size page_shift mem_flags io
    rfl

/-- Without signals on their way, a CPU yield leaves the simulated platform as
it is. -/
theorem yields_sim_idle (s : Sim) (h : s.incoming = []) (k : Nat) :
    yields simPlatform k s = s := by
  induction k with
  | zero => rfl
  | succ k ih =>
    have hy : simPlatform.metal_cpu_yield s = s := by simp [simPlatform, h]
    rw [yields, hy, ih]

/-! ## The theorems at concrete inputs -/

/-- Witness of C1: slot 0 bound to region 1 with mask 2; with status 1 the
nonblocking poll returns `-EAGAIN` after one read, with status 3 it returns 0
after the read, the acknowledging write and the ring notification. -/
theorem poll_nonblocking_witness :
    (_poll simPlatform 1 (some (proc2 (some 0) none)) 1
        (simWorld [mappedIpi none 1 2] (simWithStatus 1 1))).val? = some (-EAGAIN) ∧
    (_poll simPlatform 1 (some (proc2 (some 0) none)) 1
        (simWorld [mappedIpi none 1 2] (simWithStatus 1 1))).trace?
      = some [Event.read32 (some 1) 0x10] ∧
    (_poll simPlatform 1 (some (proc2 (some 0) none)) 1
        (simWorld [mappedIpi none 1 2] (simWithStatus 1 3))).val? = some 0 ∧
    (_poll simPlatform 1 (some (proc2 (some 0) none)) 1
        (simWorld [mappedIpi none 1 2] (simWithStatus 1 3))).trace?
      = some [Event.read32 (some 1) 0x10, Event.write32 (some 1) 0x10 2,
          Event.virtqueue_notification (some 100)] :=
  ⟨congrArg Res.val?
      ((poll_nonblocking simPlatform (proc2 (some 0) none) (slot 100 (some 0)) 0
        (mappedIpi none 1 2) 1 (simWorld [mappedIpi none 1 2] (simWithStatus 1 1)) 0 1
        rfl rfl rfl rfl (by decide)).1 (by decide)),
    congrArg Res.trace?
      ((poll_nonblocking simPlatform (proc2 (some 0) none) (slot 100 (some 0)) 0
        (mappedIpi none 1 2) 1 (simWorld [mappedIpi none 1 2] (simWithStatus 1 1)) 0 1
        rfl rfl rfl rfl (by decide)).1 (by decide)),
    congrArg Res.val?
      ((poll_nonblocking simPlatform (proc2 (some 0) none) (slot 100 (some 0)) 0
        (mappedIpi none 1 2) 1 (simWorld [mappedIpi none 1 2] (simWithStatus 1 3)) 0 1
        rfl rfl rfl rfl (by decide)).2 (by decide)),
    congrArg Res.trace?
      ((poll_nonblocking simPlatform (proc2 (some 0) none) (slot 100 (some 0)) 0
        (mappedIpi none 1 2) 1 (simWorld [mappedIpi none 1 2] (simWithStatus 1 3)) 0 1
        rfl rfl rfl rfl (by decide)).2 (by decide))⟩

/-- Witness of C3: slot 0 bound to region 1 with mask 2; the remote core raises
bit 1 at the third CPU yield, so the bit is first set at the fourth status
read: with fuel 4 the blocking poll returns 0 after four reads and three yields,
with fuel 3 it has not returned; and on a platform where the bit is never
raised it has not returned after 1000 rounds. -/
theorem poll_blocking_witness :
    (∀ k, k < 3 → statusAt simPlatform (some 1) simLateSignal k &&& 2 = 0) ∧
    statusAt simPlatform (some 1) simLateSignal 3 &&& 2 ≠ 0 ∧
    (_poll simPlatform 4 (some (proc2 (some 0) none)) 0
        (simWorld [mappedIpi none 1 2] simLateSignal)).val? = some 0 ∧
    (_poll simPlatform 4 (some (proc2 (some 0) none)) 0
        (simWorld [mappedIpi none 1 2] simLateSignal)).trace?
      = some [Event.read32 (some 1) 0x10, Event.cpu_yield,
          Event.read32 (some 1) 0x10, Event.cpu_yield,
          Event.read32 (some 1) 0x10, Event.cpu_yield,
          Event.read32 (some 1) 0x10, Event.write32 (some 1) 0x10 2,
          Event.virtqueue_notification (some 100)] ∧
    _poll simPlatform 3 (some (proc2 (some 0) none)) 0
        (simWorld [mappedIpi none 1 2] simLateSignal) = Res.timeout ∧
    _poll simPlatform 1000 (some (proc2 (some 0) none)) 0
        (simWorld [mappedIpi none 1 2] (simWithStatus 1 1)) = Res.timeout :=
  ⟨by decide, by decide,
    congrArg Res.val?
      (((poll_blocking simPlatform (proc2 (some 0) none) (slot 100 (some 0)) 0
        (mappedIpi none 1 2) 1 (simWorld [mappedIpi none 1 2] simLateSignal)
        rfl rfl rfl rfl).1 3 (by decide) (by decide)).1 4 (by decide)),
    congrArg Res.trace?
      (((poll_blocking simPlatform (proc2 (some 0) none) (slot 100 (some 0)) 0
        (mappedIpi none 1 2) 1 (simWorld [mappedIpi none 1 2] simLateSignal)
        rfl rfl rfl rfl).1 3 (by decide) (by decide)).1 4 (by decide)),
    ((poll_blocking simPlatform (proc2 (some 0) none) (slot 100 (some 0)) 0
        (mappedIpi none 1 2) 1 (simWorld [mappedIpi none 1 2] simLateSignal)
        rfl rfl rfl rfl).1 3 (by decide) (by decide)).2.1 3 (by decide),
    (poll_blocking simPlatform (proc2 (some 0) none) (slot 100 (some 0)) 0
        (mappedIpi none 1 2) 1 (simWorld [mappedIpi none 1 2] (simWithStatus 1 1))
        rfl rfl rfl rfl).2
      (fun k => by
        have h := yields_sim_idle (simWithStatus 1 1) rfl k
        simp only [statusAt, simWorld, h]
        decide) 1000⟩

/-- Witness of C2, the two-channel scenario: masks 2 (slot 0) and 1 (slot 1) on
one status register in which only bit 1 (value 2) is pending. The blocking poll
returns 0, the status register then reads 0, and the theorem applies to it; with
bits 0 and 1 both pending the register reads 1 afterwards. -/
theorem poll_write_one_to_clear_witness :
    _poll simPlatform 1 (some (proc2 (some 0) (some 1))) 0 (twoChannelWorld 2)
      = Res.ok 0 (twoChannelPolled 2) ∧
    simPlatform.metal_io_read32 (twoChannelPolled 2).plat (some 1) 0x10 = 0 ∧
    simPlatform.metal_io_read32 (twoChannelPolled 3).plat (some 1) 0x10 = 1 ∧
    ∃ n, uint32 (simPlatform.metal_io_read32
          (yields simPlatform n (twoChannelWorld 2).plat) (some 1) 0x10) &&& 2 ≠ 0 ∧
      (∀ i, (simPlatform.metal_io_read32 (twoChannelPolled 2).plat (some 1) 0x10).testBit i
        = ((simPlatform.metal_io_read32
              (yields simPlatform n (twoChannelWorld 2).plat) (some 1) 0x10).testBit i
            && !(2 : Nat).testBit i)) ∧
      uint32 (simPlatform.metal_io_read32 (twoChannelPolled 2).plat (some 1) 0x10)
        = clearBits (simPlatform.metal_io_read32
            (yields simPlatform n (twoChannelWorld 2).plat) (some 1) 0x10) 2 ∧
      ∀ (fuel2 : Nat) (nb : Int), nb ≠ 0 →
        _poll simPlatform (fuel2 + 1) (some (proc2 (some 0) (some 1))) nb (twoChannelPolled 2)
          = Res.ok (-EAGAIN)
            { ipis := (twoChannelPolled 2).ipis, plat := (twoChannelPolled 2).plat
              trace := (twoChannelPolled 2).trace ++ [Event.read32 (some 1) 0x10] } :=
  ⟨rfl, by decide, by decide,
    poll_write_one_to_clear simPlatform simPlatform_w1c (proc2 (some 0) (some 1))
      (slot 100 (some 0)) 0 (mappedIpi none 1 2) 1 (twoChannelWorld 2) (twoChannelPolled 2) 1 0
      rfl rfl rfl rfl rfl⟩

/-- Witness of C8: with both ring slots mapped, `_release` over two ring slots
returns after one teardown, and a second `_release` changes nothing. -/
theorem release_idempotent_witness :
    ∃ (w1 : World Sim) (added : List Event),
      _release simPlatform 2 (some (proc2 (some 0) (some 1))) bothMappedWorld = Res.ok () w1 ∧
      w1.trace = bothMappedWorld.trace ++ added ∧
      (added = [] ∨ ∃ d, d.io ≠ none ∧ added = teardownTrace d) ∧
      added.countP Event.isTeardown ≤ 1 ∧
      _release simPlatform 2 (some (proc2 (some 0) (some 1))) w1 = Res.ok () w1 :=
  release_idempotent simPlatform 2 (some (proc2 (some 0) (some 1))) bothMappedWorld
    (fun pr h _ => by
      cases h
      rfl)

end ZynqmpR5
